import Mathlib

set_option maxRecDepth 10000

/-!
Shallow embedding of the SimCL front end (lexer, recursive-descent parser,
AST construction, symbol table, semantic pass) from the C sources
`src/lexer.c`, `src/parser.c`, `src/ast.c`, `src/symbol_table.c`,
`src/semantic.c`, together with theorems settling the specification claims.

Source text is modelled as `List Char`; the C lexer only ever moves its
position forward and inspects `src[pos]` / `src[pos+1]`, so the remaining
input suffices as state.  C strings (lexemes, names, messages) are
`List Char`.  The parser's fatal-error path (`parser_error` calls `exit(1)`)
is modelled by an error result carrying the reported line and message.
Recursion in the parser is fuel-indexed (the C parser's termination is not
structural); fuel exhaustion is a distinguished outcome that no concrete
run in this file hits.
-/

namespace SimCL

/-! ## Character classification (ctype.h, C locale, ASCII bytes) -/

def isdigit (c : Char) : Bool := 48 ≤ c.toNat && c.toNat ≤ 57

def isalpha (c : Char) : Bool :=
  (65 ≤ c.toNat && c.toNat ≤ 90) || (97 ≤ c.toNat && c.toNat ≤ 122)

def isalnum (c : Char) : Bool := isalpha c || isdigit c

def nulChar : Char := Char.ofNat 0

def lbraceChar : Char := Char.ofNat 123

def rbraceChar : Char := Char.ofNat 125

/-! ## Tokens (include/tokens.h) -/

inductive TokenType where
  | TOKEN_EOF
  | TOKEN_IDENTIFIER
  | TOKEN_NUMBER
  | TOKEN_STRING
  | TOKEN_LET
  | TOKEN_FUNCTION
  | TOKEN_SIMULATE
  | TOKEN_RETURN
  | TOKEN_WHILE
  | TOKEN_INT
  | TOKEN_FLOAT
  | TOKEN_DOUBLE
  | TOKEN_VECTOR
  | TOKEN_MATRIX
  | TOKEN_LBRACE
  | TOKEN_RBRACE
  | TOKEN_LPAREN
  | TOKEN_RPAREN
  | TOKEN_COMMA
  | TOKEN_SEMI
  | TOKEN_PLUS
  | TOKEN_MINUS
  | TOKEN_STAR
  | TOKEN_SLASH
  | TOKEN_PERCENT
  | TOKEN_EQUAL
  | TOKEN_EQEQ
  | TOKEN_NEQ
  | TOKEN_LT
  | TOKEN_LTE
  | TOKEN_GT
  | TOKEN_GTE
  | TOKEN_UNKNOWN
deriving DecidableEq, Repr

open TokenType

/-- Numeric value of each enumerator in the C `TokenType` enum
(`TOKEN_EOF = 0`, the rest implicit and consecutive). -/
def tokNat : TokenType → Nat
  | TOKEN_EOF => 0
  | TOKEN_IDENTIFIER => 1
  | TOKEN_NUMBER => 2
  | TOKEN_STRING => 3
  | TOKEN_LET => 4
  | TOKEN_FUNCTION => 5
  | TOKEN_SIMULATE => 6
  | TOKEN_RETURN => 7
  | TOKEN_WHILE => 8
  | TOKEN_INT => 9
  | TOKEN_FLOAT => 10
  | TOKEN_DOUBLE => 11
  | TOKEN_VECTOR => 12
  | TOKEN_MATRIX => 13
  | TOKEN_LBRACE => 14
  | TOKEN_RBRACE => 15
  | TOKEN_LPAREN => 16
  | TOKEN_RPAREN => 17
  | TOKEN_COMMA => 18
  | TOKEN_SEMI => 19
  | TOKEN_PLUS => 20
  | TOKEN_MINUS => 21
  | TOKEN_STAR => 22
  | TOKEN_SLASH => 23
  | TOKEN_PERCENT => 24
  | TOKEN_EQUAL => 25
  | TOKEN_EQEQ => 26
  | TOKEN_NEQ => 27
  | TOKEN_LT => 28
  | TOKEN_LTE => 29
  | TOKEN_GT => 30
  | TOKEN_GTE => 31
  | TOKEN_UNKNOWN => 32

/-- Decimal digit character. -/
def digitChar (n : Nat) : Char := Char.ofNat (48 + n)

def natDecimalAux : Nat → Nat → List Char
  | 0, _ => []
  | f+1, n => if n < 10 then [digitChar n] else natDecimalAux f (n / 10) ++ [digitChar (n % 10)]

/-- Decimal rendering of a natural number, as `printf("%d")` produces for
the nonnegative values that occur here. -/
def natDecimal (n : Nat) : List Char := natDecimalAux (n + 1) n

/-! ## Lexer (src/lexer.c) -/

/-- `SIMCL_LEXEME_MAX` from include/lexer.h. -/
def SIMCL_LEXEME_MAX : Nat := 256

/-- Lexer state: remaining source, current line, current token kind and
lexeme.  The C struct keeps the whole source plus an index `pos`; since the
index only moves forward, the suffix `src[pos..]` is kept instead. -/
structure Lexer where
  src : List Char
  line : Nat
  type : TokenType
  lexeme : List Char
deriving DecidableEq, Repr

/-- Truncating copy into the fixed 256-byte lexeme buffer
(`lexer_set_token` / `lexer_copy_lexeme_range` copy at most
`SIMCL_LEXEME_MAX - 1` characters). -/
def truncLex (l : List Char) : List Char := l.take (SIMCL_LEXEME_MAX - 1)

/-- Keyword table of lexer.c, scanned in order; no match yields
`TOKEN_IDENTIFIER`. -/
def keywordType (s : List Char) : TokenType :=
  if s = ("let").data then TOKEN_LET
  else if s = ("function").data then TOKEN_FUNCTION
  else if s = ("simulate").data then TOKEN_SIMULATE
  else if s = ("return").data then TOKEN_RETURN
  else if s = ("while").data then TOKEN_WHILE
  else if s = ("int").data then TOKEN_INT
  else if s = ("float").data then TOKEN_FLOAT
  else if s = ("double").data then TOKEN_DOUBLE
  else if s = ("vector").data then TOKEN_VECTOR
  else if s = ("matrix").data then TOKEN_MATRIX
  else TOKEN_IDENTIFIER

/-- Line-comment skip: advance past everything up to (not including) the
next newline or end of input. -/
def skipLine (cs : List Char) : List Char := cs.dropWhile (fun c => !(c = '\n'))

/-- Block-comment skip: advance until a closing star-slash (consumed) or end
of input, counting newlines. -/
def skipBlock : List Char → Nat → List Char × Nat
  | [], line => ([], line)
  | '*' :: '/' :: rest, line => (rest, line)
  | c :: rest, line => skipBlock rest (if c = '\n' then line + 1 else line)

/-- One fuelled pass of the whitespace-and-comment loop of
`lexer_skip_whitespace_and_comments`.  Every iteration of the C loop
consumes at least one character, so fuel `length + 1` (see below) never
runs out; on (unreachable) fuel exhaustion the remaining input is returned
unchanged. -/
def skipWSF : Nat → List Char → Nat → List Char × Nat
  | 0, cs, line => (cs, line)
  | fuel+1, cs, line =>
    match cs with
    | [] => ([], line)
    | c :: rest =>
      if c = ' ' ∨ c = '\t' ∨ c = '\r' then skipWSF fuel rest line
      else if c = '\n' then skipWSF fuel rest (line + 1)
      else if c = '/' ∧ rest.headD nulChar = '/' then skipWSF fuel (skipLine rest.tail) line
      else if c = '/' ∧ rest.headD nulChar = '*' then
        let p := skipBlock rest.tail line
        skipWSF fuel p.1 p.2
      else (c :: rest, line)

def lexer_skip_whitespace_and_comments (cs : List Char) (line : Nat) : List Char × Nat :=
  skipWSF (cs.length + 1) cs line

/-- Exponent tail of `lexer_read_number`: optional sign, then digits. -/
def numExpTail (r : List Char) : List Char × List Char :=
  if r.headD nulChar = '+' ∨ r.headD nulChar = '-' then
    (r.headD nulChar :: r.tail.takeWhile isdigit, r.tail.dropWhile isdigit)
  else (r.takeWhile isdigit, r.dropWhile isdigit)

/-- Fractional part of `lexer_read_number`: a dot followed by digits. -/
def numFrac (r : List Char) : List Char × List Char :=
  if r.headD nulChar = '.' then
    ('.' :: r.tail.takeWhile isdigit, r.tail.dropWhile isdigit)
  else ([], r)

/-- Exponent part of `lexer_read_number`. -/
def numExp (r : List Char) : List Char × List Char :=
  if r.headD nulChar = 'e' ∨ r.headD nulChar = 'E' then
    let t := numExpTail r.tail
    (r.headD nulChar :: t.1, t.2)
  else ([], r)

/-- `lexer_read_number`: integer part, optional fraction, optional exponent;
returns the consumed characters and the remaining input. -/
def lexer_read_number (cs : List Char) : List Char × List Char :=
  let intPart := cs.takeWhile isdigit
  let r1 := cs.dropWhile isdigit
  let fp := numFrac r1
  let ep := numExp fp.2
  (intPart ++ fp.1 ++ ep.1, ep.2)

/-- String body scan of `lexer_read_string`, starting after the opening
quote: returns the processed characters (escapes resolved), the final line
and the remaining input.  The C code drops characters beyond the buffer
bound while scanning; truncation is applied by the caller, which matches
the C result since the buffer bound and the lexeme bound coincide. -/
def lexer_read_string_chars : List Char → Nat → List Char × Nat × List Char
  | [], line => ([], line, [])
  | '"' :: rest, line => ([], line, rest)
  | '\\' :: [], line => ([], line, [])
  | '\\' :: n :: rest, line =>
      let line1 := if n = '\n' then line + 1 else line
      let c := if n = 'n' then '\n' else if n = 't' then '\t' else if n = '"' then '"' else n
      let r := lexer_read_string_chars rest line1
      (c :: r.1, r.2.1, r.2.2)
  | c :: rest, line =>
      let line1 := if c = '\n' then line + 1 else line
      let r := lexer_read_string_chars rest line1
      (c :: r.1, r.2.1, r.2.2)

def lexer_read_identifier_or_keyword (c : Char) (rest : List Char) (line : Nat) : Lexer :=
  let w := c :: rest.takeWhile (fun x => isalnum x || x = '_')
  let r := rest.dropWhile (fun x => isalnum x || x = '_')
  let lx := truncLex w
  { src := r, line := line, type := keywordType lx, lexeme := lx }

def lexer_read_number_token (cs : List Char) (line : Nat) : Lexer :=
  let p := lexer_read_number cs
  { src := p.2, line := line, type := TOKEN_NUMBER, lexeme := truncLex p.1 }

def lexer_read_string_token (rest : List Char) (line : Nat) : Lexer :=
  let r := lexer_read_string_chars rest line
  { src := r.2.2, line := r.2.1, type := TOKEN_STRING, lexeme := truncLex r.1 }

/-- Token classification of `lexer_next` after whitespace and comments have
been skipped: identifiers/keywords, numbers, strings, two-character
operators greedily before their one-character prefixes, single-character
tokens, and the unknown-character fallback. -/
def scanToken : List Char → Nat → Lexer
  | [], line => { src := [], line := line, type := TOKEN_EOF, lexeme := [] }
  | c :: rest, line =>
    if isalpha c || c = '_' then lexer_read_identifier_or_keyword c rest line
    else if isdigit c || (c = '.' && isdigit (rest.headD nulChar)) then
      lexer_read_number_token (c :: rest) line
    else if c = '"' then lexer_read_string_token rest line
    else if c = '=' then
      if rest.headD nulChar = '=' then
        { src := rest.tail, line := line, type := TOKEN_EQEQ, lexeme := ("==").data }
      else { src := rest, line := line, type := TOKEN_EQUAL, lexeme := ("=").data }
    else if c = '!' && rest.headD nulChar = '=' then
      { src := rest.tail, line := line, type := TOKEN_NEQ, lexeme := ("!=").data }
    else if c = '<' then
      if rest.headD nulChar = '=' then
        { src := rest.tail, line := line, type := TOKEN_LTE, lexeme := ("<=").data }
      else { src := rest, line := line, type := TOKEN_LT, lexeme := ("<").data }
    else if c = '>' then
      if rest.headD nulChar = '=' then
        { src := rest.tail, line := line, type := TOKEN_GTE, lexeme := (">=").data }
      else { src := rest, line := line, type := TOKEN_GT, lexeme := (">").data }
    else if c = '+' then { src := rest, line := line, type := TOKEN_PLUS, lexeme := ("+").data }
    else if c = '-' then { src := rest, line := line, type := TOKEN_MINUS, lexeme := ("-").data }
    else if c = '*' then { src := rest, line := line, type := TOKEN_STAR, lexeme := ("*").data }
    else if c = '/' then { src := rest, line := line, type := TOKEN_SLASH, lexeme := ("/").data }
    else if c = '%' then { src := rest, line := line, type := TOKEN_PERCENT, lexeme := ("%").data }
    else if c = lbraceChar then { src := rest, line := line, type := TOKEN_LBRACE, lexeme := [lbraceChar] }
    else if c = rbraceChar then { src := rest, line := line, type := TOKEN_RBRACE, lexeme := [rbraceChar] }
    else if c = '(' then { src := rest, line := line, type := TOKEN_LPAREN, lexeme := ("(").data }
    else if c = ')' then { src := rest, line := line, type := TOKEN_RPAREN, lexeme := (")").data }
    else if c = ',' then { src := rest, line := line, type := TOKEN_COMMA, lexeme := (",").data }
    else if c = ';' then { src := rest, line := line, type := TOKEN_SEMI, lexeme := (";").data }
    else { src := rest, line := line, type := TOKEN_UNKNOWN, lexeme := [c] }

/-- `lexer_next`: skip whitespace and comments, then scan one token. -/
def lexer_next (lex : Lexer) : Lexer :=
  let p := lexer_skip_whitespace_and_comments lex.src lex.line
  scanToken p.1 p.2

/-- `lexer_init`: position at the start, line 1, current token end-of-stream. -/
def lexer_init (src : List Char) : Lexer :=
  { src := src, line := 1, type := TOKEN_EOF, lexeme := [] }

/-! ## AST (include/ast.h, src/ast.c) -/

inductive ASTNodeType where
  | AST_PROGRAM
  | AST_BLOCK
  | AST_LET
  | AST_FUNCTION
  | AST_RETURN
  | AST_WHILE
  | AST_SIMULATE
  | AST_EXPR_STMT
  | AST_BINARY_EXPR
  | AST_UNARY_EXPR
  | AST_NUMBER_LITERAL
  | AST_STRING_LITERAL
  | AST_IDENTIFIER
  | AST_CALL_EXPR
deriving DecidableEq, Repr

open ASTNodeType

/-- The C `ASTNode` struct: a tagged node with the shared manual field
layout.  Null pointers are `none`; the C string fields `name`, `op` and
`literal` are `List Char` (`ast_new_node` initialises them to the empty
string / NUL, and no code distinguishes a null string field from an empty
one). Field order follows the struct declaration. -/
inductive ASTNode where
  | mk (kind : ASTNodeType) (next : Option ASTNode) (line : Nat)
       (child : Option ASTNode) (name : List Char) (value : Option ASTNode)
       (params : Option ASTNode) (op : List Char)
       (left : Option ASTNode) (right : Option ASTNode) (literal : List Char)

def ASTNode.kind : ASTNode → ASTNodeType
  | .mk k _ _ _ _ _ _ _ _ _ _ => k

def ASTNode.next : ASTNode → Option ASTNode
  | .mk _ nx _ _ _ _ _ _ _ _ _ => nx

def ASTNode.line : ASTNode → Nat
  | .mk _ _ l _ _ _ _ _ _ _ _ => l

def ASTNode.child : ASTNode → Option ASTNode
  | .mk _ _ _ c _ _ _ _ _ _ _ => c

def ASTNode.name : ASTNode → List Char
  | .mk _ _ _ _ nm _ _ _ _ _ _ => nm

def ASTNode.value : ASTNode → Option ASTNode
  | .mk _ _ _ _ _ v _ _ _ _ _ => v

def ASTNode.params : ASTNode → Option ASTNode
  | .mk _ _ _ _ _ _ pm _ _ _ _ => pm

def ASTNode.op : ASTNode → List Char
  | .mk _ _ _ _ _ _ _ o _ _ _ => o

def ASTNode.left : ASTNode → Option ASTNode
  | .mk _ _ _ _ _ _ _ _ lf _ _ => lf

def ASTNode.right : ASTNode → Option ASTNode
  | .mk _ _ _ _ _ _ _ _ _ rt _ => rt

def ASTNode.literal : ASTNode → List Char
  | .mk _ _ _ _ _ _ _ _ _ _ lit => lit

def ASTNode.withNext (n : ASTNode) (nx : Option ASTNode) : ASTNode :=
  match n with
  | .mk k _ l c nm v pm o lf rt lit => .mk k nx l c nm v pm o lf rt lit

def ASTNode.withChild (n : ASTNode) (c : Option ASTNode) : ASTNode :=
  match n with
  | .mk k nx l _ nm v pm o lf rt lit => .mk k nx l c nm v pm o lf rt lit

/-- `ast_new_node`: all fields null / empty. -/
def ast_new_node (kind : ASTNodeType) (line : Nat) : ASTNode :=
  .mk kind none line none [] none none [] none none []

def ast_new_program (line : Nat) : ASTNode := ast_new_node AST_PROGRAM line

def ast_new_block (line : Nat) : ASTNode := ast_new_node AST_BLOCK line

def ast_new_let (name : List Char) (init : Option ASTNode) (line : Nat) : ASTNode :=
  .mk AST_LET none line none name init none [] none none []

def ast_new_function (name : List Char) (params : Option ASTNode)
    (body : Option ASTNode) (line : Nat) : ASTNode :=
  .mk AST_FUNCTION none line none name body params [] none none []

def ast_new_return (expr : Option ASTNode) (line : Nat) : ASTNode :=
  .mk AST_RETURN none line none [] expr none [] none none []

def ast_new_while (cond : Option ASTNode) (body : Option ASTNode) (line : Nat) : ASTNode :=
  .mk AST_WHILE none line body [] cond none [] none none []

def ast_new_simulate (body : Option ASTNode) (line : Nat) : ASTNode :=
  .mk AST_SIMULATE none line body [] none none [] none none []

def ast_new_expr_stmt (expr : Option ASTNode) (line : Nat) : ASTNode :=
  .mk AST_EXPR_STMT none line none [] expr none [] none none []

def ast_new_identifier (name : List Char) (line : Nat) : ASTNode :=
  .mk AST_IDENTIFIER none line none name none none [] none none []

def ast_new_number (numtext : List Char) (line : Nat) : ASTNode :=
  .mk AST_NUMBER_LITERAL none line none [] none none [] none none numtext

def ast_new_string (text : List Char) (line : Nat) : ASTNode :=
  .mk AST_STRING_LITERAL none line none [] none none [] none none text

/-- `ast_new_binary`: the operator is copied into the 4-byte `op` buffer
(at most 3 characters). -/
def ast_new_binary (left : Option ASTNode) (op : List Char)
    (right : Option ASTNode) (line : Nat) : ASTNode :=
  .mk AST_BINARY_EXPR none line none [] none none (op.take 3) left right []

def ast_new_unary (op : List Char) (expr : Option ASTNode) (line : Nat) : ASTNode :=
  .mk AST_UNARY_EXPR none line none [] expr none (op.take 3) none none []

def ast_new_call (callee : Option ASTNode) (args : Option ASTNode) (line : Nat) : ASTNode :=
  .mk AST_CALL_EXPR none line args [] none none [] callee none []

/-- Tail of `ast_list_append`: walk the `next` chain of `h` and attach
`node` (with its `next` cleared) at the end. -/
def append_to (h : ASTNode) (node : ASTNode) : ASTNode :=
  match h with
  | .mk k nx l c nm v pm o lf rt lit =>
    match nx with
    | none => .mk k (some (node.withNext none)) l c nm v pm o lf rt lit
    | some m => .mk k (some (append_to m node)) l c nm v pm o lf rt lit

/-- `ast_list_append(&head, node)`: returns the new head of the sibling
list. -/
def ast_list_append (head : Option ASTNode) (node : ASTNode) : ASTNode :=
  match head with
  | none => node.withNext none
  | some h => append_to h node

/-! ## Parser (src/parser.c) -/

/-- A fatal parse error as reported by `parser_error` (which prints
`"Parser error (line L): <message>"` and exits): reported line and message. -/
structure PError where
  line : Nat
  msg : List Char
deriving DecidableEq, Repr

/-- The full diagnostic line `parser_error` writes to the error stream. -/
def render (e : PError) : List Char :=
  ("Parser error (line ").data ++ natDecimal e.line ++ ("): ").data ++ e.msg

/-- Outcome of a parser computation: success with value and lexer state,
fatal error, or fuel exhaustion (a modelling artifact only — no run in this
file exhausts its fuel). -/
inductive PResult (α : Type) where
  | ok (a : α) (st : Lexer)
  | err (e : PError)
  | fuelOut
deriving DecidableEq, Repr

def pbind {α β : Type} (r : PResult α) (f : α → Lexer → PResult β) : PResult β :=
  match r with
  | .ok a st => f a st
  | .err e => .err e
  | .fuelOut => .fuelOut

/-- `advance`: pull the next token. -/
def advance (st : Lexer) : Lexer := lexer_next st

/-- `accept`: consume the current token if it has the given type. -/
def accept (t : TokenType) (st : Lexer) : Bool × Lexer :=
  if st.type = t then (true, advance st) else (false, st)

/-- Message of `expect` on a mismatch:
`"expected token %d but got %d ('%s')"`. -/
def expectMsg (want got : TokenType) (lx : List Char) : List Char :=
  ("expected token ").data ++ natDecimal (tokNat want) ++ (" but got ").data ++
    natDecimal (tokNat got) ++ (" (\x27").data ++ lx ++ ("\x27)").data

/-- `expect`: error out on a token-type mismatch, otherwise consume. -/
def expect (t : TokenType) (st : Lexer) : PResult Unit :=
  if st.type = t then .ok () (advance st)
  else .err { line := st.line, msg := expectMsg t st.type st.lexeme }

def letErrMsg : List Char := ("expected identifier after \x27let\x27").data

def funcNameErrMsg : List Char := ("expected function name").data

def assignTargetErrMsg : List Char := ("invalid assignment target").data

def primaryErrMsg (lx : List Char) : List Char :=
  ("unexpected token \x27").data ++ lx ++ ("\x27 in primary expression").data

def paramNameErrMsg : List Char := ("expected parameter name").data

/-- The mutually recursive parse functions of parser.c, gathered at one fuel
level.  Recursion is tied through `pfuns` below: every call made by a
function at fuel `f + 1` runs at fuel `f`, which keeps evaluation
structural in the fuel. -/
structure PFuns where
  stmt : Lexer → PResult (Option ASTNode)
  blockF : Lexer → PResult ASTNode
  blockLoop : ASTNode → Lexer → PResult ASTNode
  letF : Lexer → PResult ASTNode
  functionF : Lexer → PResult ASTNode
  simulateF : Lexer → PResult ASTNode
  returnF : Lexer → PResult ASTNode
  whileF : Lexer → PResult ASTNode
  expression : Lexer → PResult ASTNode
  assignment : Lexer → PResult ASTNode
  equality : Lexer → PResult ASTNode
  equalityLoop : ASTNode → Lexer → PResult ASTNode
  relational : Lexer → PResult ASTNode
  relationalLoop : ASTNode → Lexer → PResult ASTNode
  additive : Lexer → PResult ASTNode
  additiveLoop : ASTNode → Lexer → PResult ASTNode
  multiplicative : Lexer → PResult ASTNode
  multiplicativeLoop : ASTNode → Lexer → PResult ASTNode
  unaryF : Lexer → PResult ASTNode
  primary : Lexer → PResult ASTNode
  argList : Lexer → PResult (Option ASTNode)
  argLoop : Option ASTNode → Lexer → PResult (Option ASTNode)
  paramList : Lexer → PResult (Option ASTNode)
  paramLoop : Option ASTNode → Lexer → PResult (Option ASTNode)
  progLoop : ASTNode → Lexer → PResult ASTNode

/-- Fuel exhausted: every function gives up. -/
def pfunsZero : PFuns where
  stmt := fun _ => .fuelOut
  blockF := fun _ => .fuelOut
  blockLoop := fun _ _ => .fuelOut
  letF := fun _ => .fuelOut
  functionF := fun _ => .fuelOut
  simulateF := fun _ => .fuelOut
  returnF := fun _ => .fuelOut
  whileF := fun _ => .fuelOut
  expression := fun _ => .fuelOut
  assignment := fun _ => .fuelOut
  equality := fun _ => .fuelOut
  equalityLoop := fun _ _ => .fuelOut
  relational := fun _ => .fuelOut
  relationalLoop := fun _ _ => .fuelOut
  additive := fun _ => .fuelOut
  additiveLoop := fun _ _ => .fuelOut
  multiplicative := fun _ => .fuelOut
  multiplicativeLoop := fun _ _ => .fuelOut
  unaryF := fun _ => .fuelOut
  primary := fun _ => .fuelOut
  argList := fun _ => .fuelOut
  argLoop := fun _ _ => .fuelOut
  paramList := fun _ => .fuelOut
  paramLoop := fun _ _ => .fuelOut
  progLoop := fun _ _ => .fuelOut

/-- One step of the parser: each body is the direct translation of the
corresponding parser.c function, with `r` supplying the callees. -/
def pfunsStep (r : PFuns) : PFuns where
  stmt := fun st =>
    if st.type = TOKEN_LET then pbind (r.letF st) fun n st1 => .ok (some n) st1
    else if st.type = TOKEN_FUNCTION then pbind (r.functionF st) fun n st1 => .ok (some n) st1
    else if st.type = TOKEN_SIMULATE then pbind (r.simulateF st) fun n st1 => .ok (some n) st1
    else if st.type = TOKEN_RETURN then pbind (r.returnF st) fun n st1 => .ok (some n) st1
    else if st.type = TOKEN_WHILE then pbind (r.whileF st) fun n st1 => .ok (some n) st1
    else
      pbind (r.expression st) fun expr st1 =>
        let a := accept TOKEN_SEMI st1
        .ok (some (ast_new_expr_stmt (some expr) a.2.line)) a.2
  blockF := fun st =>
    pbind (expect TOKEN_LBRACE st) fun _ st1 =>
    pbind (r.blockLoop (ast_new_block st1.line) st1) fun blk st2 =>
    pbind (expect TOKEN_RBRACE st2) fun _ st3 => .ok blk st3
  blockLoop := fun blk st =>
    if st.type ≠ TOKEN_RBRACE ∧ st.type ≠ TOKEN_EOF then
      pbind (r.stmt st) fun stmt st1 =>
        match stmt with
        | some s => r.blockLoop (blk.withChild (some (ast_list_append blk.child s))) st1
        | none => r.blockLoop blk (advance st1)
    else .ok blk st
  letF := fun st =>
    pbind (expect TOKEN_LET st) fun _ st1 =>
      if st1.type ≠ TOKEN_IDENTIFIER then .err { line := st1.line, msg := letErrMsg }
      else
        let namebuf := st1.lexeme.take 255
        let st2 := advance st1
        pbind (expect TOKEN_EQUAL st2) fun _ st3 =>
        pbind (r.expression st3) fun expr st4 =>
          let a := accept TOKEN_SEMI st4
          .ok (ast_new_let namebuf (some expr) a.2.line) a.2
  functionF := fun st =>
    pbind (expect TOKEN_FUNCTION st) fun _ st1 =>
      if st1.type ≠ TOKEN_IDENTIFIER then .err { line := st1.line, msg := funcNameErrMsg }
      else
        let namebuf := st1.lexeme.take 255
        let st2 := advance st1
        pbind (expect TOKEN_LPAREN st2) fun _ st3 =>
        pbind (if st3.type ≠ TOKEN_RPAREN then r.paramList st3 else .ok none st3) fun params st4 =>
        pbind (expect TOKEN_RPAREN st4) fun _ st5 =>
        pbind (r.blockF st5) fun body st6 =>
          .ok (ast_new_function namebuf params (some body) st6.line) st6
  simulateF := fun st =>
    pbind (expect TOKEN_SIMULATE st) fun _ st1 =>
    pbind (r.blockF st1) fun body st2 =>
      .ok (ast_new_simulate (some body) st2.line) st2
  returnF := fun st =>
    pbind (expect TOKEN_RETURN st) fun _ st1 =>
    pbind (r.expression st1) fun expr st2 =>
      let a := accept TOKEN_SEMI st2
      .ok (ast_new_return (some expr) a.2.line) a.2
  whileF := fun st =>
    pbind (expect TOKEN_WHILE st) fun _ st1 =>
    pbind (r.expression st1) fun cond st2 =>
    pbind (r.blockF st2) fun body st3 =>
      .ok (ast_new_while (some cond) (some body) st3.line) st3
  expression := fun st => r.assignment st
  assignment := fun st =>
    pbind (r.equality st) fun left st1 =>
      if st1.type = TOKEN_EQUAL then
        if ¬ left.kind = AST_IDENTIFIER then .err { line := st1.line, msg := assignTargetErrMsg }
        else
          pbind (expect TOKEN_EQUAL st1) fun _ st2 =>
          pbind (r.assignment st2) fun right st3 =>
            .ok (ast_new_binary (some left) (("=").data) (some right) st3.line) st3
      else .ok left st1
  equality := fun st =>
    pbind (r.relational st) fun node st1 => r.equalityLoop node st1
  equalityLoop := fun node st =>
    if st.type = TOKEN_EQEQ ∨ st.type = TOKEN_NEQ then
      let opbuf := if st.type = TOKEN_EQEQ then ("==").data else ("!=").data
      pbind (r.relational (advance st)) fun rhs st2 =>
        r.equalityLoop (ast_new_binary (some node) opbuf (some rhs) st2.line) st2
    else .ok node st
  relational := fun st =>
    pbind (r.additive st) fun node st1 => r.relationalLoop node st1
  relationalLoop := fun node st =>
    if st.type = TOKEN_LT ∨ st.type = TOKEN_LTE ∨ st.type = TOKEN_GT ∨ st.type = TOKEN_GTE then
      let opbuf := if st.type = TOKEN_LT then ("<").data
        else if st.type = TOKEN_LTE then ("<=").data
        else if st.type = TOKEN_GT then (">").data
        else (">=").data
      pbind (r.additive (advance st)) fun rhs st2 =>
        r.relationalLoop (ast_new_binary (some node) opbuf (some rhs) st2.line) st2
    else .ok node st
  additive := fun st =>
    pbind (r.multiplicative st) fun node st1 => r.additiveLoop node st1
  additiveLoop := fun node st =>
    if st.type = TOKEN_PLUS ∨ st.type = TOKEN_MINUS then
      let opbuf := if st.type = TOKEN_PLUS then ("+").data else ("-").data
      pbind (r.multiplicative (advance st)) fun rhs st2 =>
        r.additiveLoop (ast_new_binary (some node) opbuf (some rhs) st2.line) st2
    else .ok node st
  multiplicative := fun st =>
    pbind (r.unaryF st) fun node st1 => r.multiplicativeLoop node st1
  multiplicativeLoop := fun node st =>
    if st.type = TOKEN_STAR ∨ st.type = TOKEN_SLASH ∨ st.type = TOKEN_PERCENT then
      let opbuf := if st.type = TOKEN_STAR then ("*").data
        else if st.type = TOKEN_SLASH then ("/").data
        else ("%").data
      pbind (r.unaryF (advance st)) fun rhs st2 =>
        r.multiplicativeLoop (ast_new_binary (some node) opbuf (some rhs) st2.line) st2
    else .ok node st
  unaryF := fun st =>
    if st.type = TOKEN_PLUS ∨ st.type = TOKEN_MINUS then
      let opbuf := if st.type = TOKEN_PLUS then ("+").data else ("-").data
      pbind (r.unaryF (advance st)) fun expr st2 =>
        .ok (ast_new_unary opbuf (some expr) st2.line) st2
    else r.primary st
  primary := fun st =>
    if st.type = TOKEN_NUMBER then .ok (ast_new_number st.lexeme st.line) (advance st)
    else if st.type = TOKEN_STRING then .ok (ast_new_string st.lexeme st.line) (advance st)
    else if st.type = TOKEN_IDENTIFIER then
      let id := ast_new_identifier st.lexeme st.line
      let st1 := advance st
      if st1.type = TOKEN_LPAREN then
        let st2 := advance st1
        pbind (if st2.type ≠ TOKEN_RPAREN then r.argList st2 else .ok none st2) fun args st3 =>
        pbind (expect TOKEN_RPAREN st3) fun _ st4 =>
          .ok (ast_new_call (some id) args st4.line) st4
      else .ok id st1
    else if st.type = TOKEN_LPAREN then
      pbind (r.expression (advance st)) fun expr st2 =>
      pbind (expect TOKEN_RPAREN st2) fun _ st3 => .ok expr st3
    else .err { line := st.line, msg := primaryErrMsg st.lexeme }
  argList := fun st => r.argLoop none st
  argLoop := fun head st =>
    if st.type ≠ TOKEN_RPAREN ∧ st.type ≠ TOKEN_EOF then
      pbind (r.expression st) fun expr st1 =>
        let head1 := some (ast_list_append head expr)
        if st1.type = TOKEN_COMMA then r.argLoop head1 (advance st1)
        else .ok head1 st1
    else .ok head st
  paramList := fun st => r.paramLoop none st
  paramLoop := fun head st =>
    if st.type ≠ TOKEN_RPAREN ∧ st.type ≠ TOKEN_EOF then
      if st.type ≠ TOKEN_IDENTIFIER then .err { line := st.line, msg := paramNameErrMsg }
      else
        let id := ast_new_identifier st.lexeme st.line
        let st1 := advance st
        let head1 := some (ast_list_append head id)
        if st1.type = TOKEN_COMMA then r.paramLoop head1 (advance st1)
        else .ok head1 st1
    else .ok head st
  progLoop := fun root st =>
    if st.type ≠ TOKEN_EOF then
      pbind (r.stmt st) fun stmt st1 =>
        match stmt with
        | some s =>
            let root1 := match root.child with
              | none => root.withChild (some s)
              | some h => root.withChild (some (append_to h s))
            r.progLoop root1 st1
        | none => r.progLoop root (advance st1)
    else .ok root st

/-- Fuel-indexed parser functions. -/
def pfuns : Nat → PFuns
  | 0 => pfunsZero
  | f+1 => pfunsStep (pfuns f)

/-- `parser_init`: prime the lexer to the first token. -/
def parser_init (lx : Lexer) : Lexer := lexer_next lx

/-- `parser_parse`: build the `Program` root (at the current token's line)
and consume statements until end-of-stream. -/
def parser_parse (fuel : Nat) (st : Lexer) : PResult ASTNode :=
  match fuel with
  | 0 => .fuelOut
  | f+1 => (pfuns f).progLoop (ast_new_program st.line) st

def parse_statement (f : Nat) : Lexer → PResult (Option ASTNode) := (pfuns f).stmt

def parse_block (f : Nat) : Lexer → PResult ASTNode := (pfuns f).blockF

def parse_let (f : Nat) : Lexer → PResult ASTNode := (pfuns f).letF

def parse_function (f : Nat) : Lexer → PResult ASTNode := (pfuns f).functionF

def parse_simulate (f : Nat) : Lexer → PResult ASTNode := (pfuns f).simulateF

def parse_return (f : Nat) : Lexer → PResult ASTNode := (pfuns f).returnF

def parse_while (f : Nat) : Lexer → PResult ASTNode := (pfuns f).whileF

def parse_expression (f : Nat) : Lexer → PResult ASTNode := (pfuns f).expression

def parse_assignment (f : Nat) : Lexer → PResult ASTNode := (pfuns f).assignment

def parse_equality (f : Nat) : Lexer → PResult ASTNode := (pfuns f).equality

def parse_relational (f : Nat) : Lexer → PResult ASTNode := (pfuns f).relational

def parse_additive (f : Nat) : Lexer → PResult ASTNode := (pfuns f).additive

def parse_multiplicative (f : Nat) : Lexer → PResult ASTNode := (pfuns f).multiplicative

def parse_unary (f : Nat) : Lexer → PResult ASTNode := (pfuns f).unaryF

def parse_primary (f : Nat) : Lexer → PResult ASTNode := (pfuns f).primary

def parse_arg_list (f : Nat) : Lexer → PResult (Option ASTNode) := (pfuns f).argList

def arg_loop (f : Nat) : Option ASTNode → Lexer → PResult (Option ASTNode) := (pfuns f).argLoop

def parse_param_list (f : Nat) : Lexer → PResult (Option ASTNode) := (pfuns f).paramList

def param_loop (f : Nat) : Option ASTNode → Lexer → PResult (Option ASTNode) := (pfuns f).paramLoop

/-- Initial parser state over a source string: `lexer_init` then
`parser_init`. -/
def pinit (s : String) : Lexer := parser_init (lexer_init s.data)

/-- The whole front-end parse of a source string with ample fuel, keeping
only the resulting AST (`none` on a fatal error).  Fuel 200 exceeds the
recursion depth any input in this file can reach. -/
def parsed_program (s : String) : Option ASTNode :=
  match parser_parse 200 (pinit s) with
  | .ok root _ => some root
  | _ => none

/-! ## Type system and symbol table (include/type_system.h, src/symbol_table.c) -/

inductive SimCLType where
  | TYPE_INT
  | TYPE_FLOAT
  | TYPE_DOUBLE
  | TYPE_VECTOR
  | TYPE_MATRIX
  | TYPE_FUNCTION
  | TYPE_VOID
  | TYPE_UNKNOWN
deriving DecidableEq, Repr

open SimCLType

/-- One symbol-table entry (the C `Symbol`, with the `next` pointer
replaced by list structure). -/
structure Symbol where
  name : List Char
  type : SimCLType
deriving DecidableEq, Repr

/-- One scope: binding list plus (non-owning) parent link. -/
inductive SymbolTable where
  | mk (head : List Symbol) (parent : Option SymbolTable)

def SymbolTable.head : SymbolTable → List Symbol
  | .mk h _ => h

def SymbolTable.parent : SymbolTable → Option SymbolTable
  | .mk _ p => p

/-- `symtab_new`: empty scope with optional parent. -/
def symtab_new (parent : Option SymbolTable) : SymbolTable := .mk [] parent

/-- `symtab_add`: prepend a binding to the scope's list. -/
def symtab_add (t : SymbolTable) (name : List Char) (ty : SimCLType) : SymbolTable :=
  .mk ({ name := name, type := ty } :: t.head) t.parent

/-- Scan of one scope's binding list, first match wins (the `for` loop in
`symtab_lookup`). -/
def symbolFind : List Symbol → List Char → Option Symbol
  | [], _ => none
  | s :: rest, n => if s.name = n then some s else symbolFind rest n

/-- `symtab_lookup`: search the current scope then recurse to the parent;
a null table yields null. -/
def symtab_lookup : Option SymbolTable → List Char → Option Symbol
  | none, _ => none
  | some (.mk head parent), n =>
    match symbolFind head n with
    | some s => some s
    | none => symtab_lookup parent n

/-! ## Semantic analysis (src/semantic.c)

The C pass mutates `ctx->current_scope` and the tables it points to; here
`analyze_node` takes the current scope by value and returns its final
value, together with the trace of the scope operations it performed
(`symtab_new` = `enterScope`, `symtab_free` of a pushed scope =
`exitScope`, `symtab_add` = `addSym`).  All additions target the current
scope, so the returned table is exactly the final state of the table that
was current on entry. -/

inductive SemEvent where
  | enterScope
  | exitScope
  | addSym (name : List Char) (ty : SimCLType)
deriving DecidableEq, Repr

/-- The parameter-registration loop of the `AST_FUNCTION` case: walk the
`params` chain, adding each name as `TYPE_UNKNOWN`. -/
def addParams : SymbolTable → Option ASTNode → SymbolTable × List SemEvent
  | t, none => (t, [])
  | t, some p =>
    match p with
    | .mk _ nx _ _ nm _ _ _ _ _ _ =>
      let t1 := symtab_add t nm TYPE_UNKNOWN
      let r := addParams t1 nx
      (r.1, SemEvent.addSym nm TYPE_UNKNOWN :: r.2)

mutual

/-- `analyze_node` (with the null check of the C function) and
`analyze_list`, fuel-indexed; fuel exhaustion returns the scope unchanged
and is unreachable for the finite ASTs used here. -/
def analyze_node : Nat → SymbolTable → Option ASTNode → SymbolTable × List SemEvent
  | _, cur, none => (cur, [])
  | 0, cur, some _ => (cur, [])
  | f+1, cur, some nd =>
    match nd.kind with
    | AST_PROGRAM | AST_BLOCK =>
        let child := symtab_new (some cur)
        let r := analyze_list f child nd.child
        (cur, SemEvent.enterScope :: (r.2 ++ [SemEvent.exitScope]))
    | AST_LET =>
        let s1 := symtab_add cur nd.name TYPE_UNKNOWN
        let r := analyze_node f s1 nd.value
        (r.1, SemEvent.addSym nd.name TYPE_UNKNOWN :: r.2)
    | AST_FUNCTION =>
        let s1 := symtab_add cur nd.name TYPE_FUNCTION
        let inner := symtab_new (some s1)
        let pr := addParams inner nd.params
        let br := analyze_node f pr.1 nd.value
        (s1, SemEvent.addSym nd.name TYPE_FUNCTION :: SemEvent.enterScope ::
              (pr.2 ++ br.2 ++ [SemEvent.exitScope]))
    | AST_RETURN => analyze_node f cur nd.value
    | AST_WHILE | AST_SIMULATE =>
        let r1 := analyze_node f cur nd.value
        let r2 := analyze_node f r1.1 nd.child
        (r2.1, r1.2 ++ r2.2)
    | AST_EXPR_STMT => analyze_node f cur nd.value
    | AST_BINARY_EXPR | AST_UNARY_EXPR =>
        let r1 := analyze_node f cur nd.left
        let r2 := analyze_node f r1.1 nd.right
        let r3 := analyze_node f r2.1 nd.value
        (r3.1, r1.2 ++ r2.2 ++ r3.2)
    | AST_CALL_EXPR =>
        let r1 := analyze_node f cur nd.left
        let r2 := analyze_node f r1.1 nd.child
        (r2.1, r1.2 ++ r2.2)
    | AST_IDENTIFIER | AST_NUMBER_LITERAL | AST_STRING_LITERAL => (cur, [])

/-- `analyze_list`: analyze each node of a sibling chain in order. -/
def analyze_list : Nat → SymbolTable → Option ASTNode → SymbolTable × List SemEvent
  | _, cur, none => (cur, [])
  | 0, cur, some _ => (cur, [])
  | f+1, cur, some nd =>
      let r1 := analyze_node f cur (some nd)
      let r2 := analyze_list f r1.1 nd.next
      (r2.1, r1.2 ++ r2.2)

end

structure SemanticContext where
  globals : SymbolTable
  current_scope : SymbolTable

/-- `semantic_init`: a fresh root scope, with `current_scope` aliasing
`globals`. -/
def semantic_init : SemanticContext :=
  let g := symtab_new none
  { globals := g, current_scope := g }

/-- `semantic_analyze` for a context in which `current_scope` aliases
`globals` (the only way contexts are created): in C the `globals` pointer
is never reassigned, and the net mutations to the table it points at are
exactly the returned final value of the current scope. -/
def semantic_analyze (f : Nat) (ctx : SemanticContext) (root : Option ASTNode) :
    SemanticContext × List SemEvent :=
  let r := analyze_node f ctx.current_scope root
  ({ globals := r.1, current_scope := r.1 }, r.2)

/-- One whole pass: `semantic_init` then `semantic_analyze`. -/
def semantic_run (f : Nat) (root : Option ASTNode) : SemanticContext × List SemEvent :=
  semantic_analyze f semantic_init root

/-! ## Specification-side predicates (used only in theorem statements) -/

/-- `needle` occurs contiguously inside `hay`. -/
def containsSub (needle hay : List Char) : Bool :=
  hay.tails.any (fun t => needle.isPrefixOf t)

/-- The name is bound somewhere in the scope chain. -/
def boundInChain : Option SymbolTable → List Char → Bool
  | none, _ => false
  | some (.mk head parent), n =>
    head.any (fun s => decide (s.name = n)) || boundInChain parent n

def allDigits (l : List Char) : Bool := l.all isdigit

/-- Shape of the fractional part a number scan can produce. -/
def FracShape (b : List Char) : Prop :=
  b = [] ∨ ∃ bs, b = '.' :: bs ∧ allDigits bs = true

/-- Shape of the part after the exponent letter. -/
def ExpTailShape (t : List Char) : Prop :=
  (∃ s ds, (s = '+' ∨ s = '-') ∧ t = s :: ds ∧ allDigits ds = true) ∨ allDigits t = true

/-- Shape of the exponent part a number scan can produce. -/
def ExpShape (c : List Char) : Prop :=
  c = [] ∨ ∃ e t, (e = 'e' ∨ e = 'E') ∧ c = e :: t ∧ ExpTailShape t

/-- Characterisation of the texts `lexer_read_number` can consume:
digits, then an optional fraction, then an optional exponent. -/
def NumText (w : List Char) : Prop :=
  ∃ a b c, w = a ++ b ++ c ∧ allDigits a = true ∧ FracShape b ∧ ExpShape c

/-- A list that the dispatch in `lexer_next` sends to the number scanner:
it starts with a digit, or with a dot followed by a digit. -/
def numStart (w : List Char) : Prop :=
  (∃ d t, w = d :: t ∧ isdigit d = true) ∨ (∃ d t, w = '.' :: d :: t ∧ isdigit d = true)

/-- The names along a parameter chain, in order. -/
def chainNames : Option ASTNode → List (List Char)
  | none => []
  | some (.mk _ nx _ _ nm _ _ _ _ _ _) => nm :: chainNames nx

/-! ## Shorthand for expected ASTs of one-line sources (all lines are 1) -/

def pnum (s : String) : ASTNode := ast_new_number s.data 1

def pid (s : String) : ASTNode := ast_new_identifier s.data 1

def pbin (l : ASTNode) (op : String) (r : ASTNode) : ASTNode :=
  ast_new_binary (some l) op.data (some r) 1

def pun (op : String) (e : ASTNode) : ASTNode := ast_new_unary op.data (some e) 1

/-- A `Program` whose single statement is the expression statement `e;`. -/
def pexprProgram (e : ASTNode) : ASTNode :=
  (ast_new_program 1).withChild (some (ast_new_expr_stmt (some e) 1))

/-! ## Theorems -/

theorem pbind_ok_inv {α β : Type} {r : PResult α} {g : α → Lexer → PResult β} {v : β}
    {st : Lexer} (h : pbind r g = .ok v st) :
    ∃ a st1, r = .ok a st1 ∧ g a st1 = .ok v st := by
  cases r with
  | ok a st1 => exact ⟨a, st1, rfl, h⟩
  | err e => simp [pbind] at h
  | fuelOut => simp [pbind] at h

/-- Claim C1: binary operators are parsed with the spec's precedence
(assignment < equality < relational < additive < multiplicative < unary)
and left associativity within a level; in particular `1 + 2 * 3` parses to
`BinaryExpr(+, 1, BinaryExpr(*, 2, 3))`.  The conjuncts distinguish every
adjacent precedence pair of the chain — assignment/equality (`a = 1 == 2`),
equality/relational (`1 < 2 == 3 >= 4`), relational/additive
(`1 + 2 < 3 + 4`), additive/multiplicative (`1 + 2 * 3`, `1 * 2 + 3`),
multiplicative/unary (`- 2 * 3`) — and check left associativity at the
equality, relational, additive and multiplicative levels; a parser with any
two adjacent levels permuted produces a different tree on the
corresponding input. -/
theorem C1_operator_precedence :
    parsed_program ("1 + 2 * 3") =
      some (pexprProgram (pbin (pnum ("1")) ("+") (pbin (pnum ("2")) ("*") (pnum ("3")))))
  ∧ parsed_program ("1 * 2 + 3") =
      some (pexprProgram (pbin (pbin (pnum ("1")) ("*") (pnum ("2"))) ("+") (pnum ("3"))))
  ∧ parsed_program ("1 - 2 - 3") =
      some (pexprProgram (pbin (pbin (pnum ("1")) ("-") (pnum ("2"))) ("-") (pnum ("3"))))
  ∧ parsed_program ("10 / 2 % 3") =
      some (pexprProgram (pbin (pbin (pnum ("10")) ("/") (pnum ("2"))) ("%") (pnum ("3"))))
  ∧ parsed_program ("1 == 2 != 3") =
      some (pexprProgram (pbin (pbin (pnum ("1")) ("==") (pnum ("2"))) ("!=") (pnum ("3"))))
  ∧ parsed_program ("1 < 2 == 3 >= 4") =
      some (pexprProgram (pbin (pbin (pnum ("1")) ("<") (pnum ("2"))) ("==")
        (pbin (pnum ("3")) (">=") (pnum ("4")))))
  ∧ parsed_program ("1 < 2 < 3") =
      some (pexprProgram (pbin (pbin (pnum ("1")) ("<") (pnum ("2"))) ("<") (pnum ("3"))))
  ∧ parsed_program ("a = 1 + 2") =
      some (pexprProgram (pbin (pid ("a")) ("=") (pbin (pnum ("1")) ("+") (pnum ("2")))))
  ∧ parsed_program ("a = 1 == 2") =
      some (pexprProgram (pbin (pid ("a")) ("=") (pbin (pnum ("1")) ("==") (pnum ("2")))))
  ∧ parsed_program ("1 + 2 < 3 + 4") =
      some (pexprProgram (pbin (pbin (pnum ("1")) ("+") (pnum ("2"))) ("<")
        (pbin (pnum ("3")) ("+") (pnum ("4")))))
  ∧ parsed_program ("- 2 * 3") =
      some (pexprProgram (pbin (pun ("-") (pnum ("2"))) ("*") (pnum ("3")))) :=
  ⟨rfl, rfl, rfl, rfl, rfl, rfl, rfl, rfl, rfl, rfl, rfl⟩

/-- Claim C2: assignment is right-associative and represented as a
`BinaryExpr` with operator `=`; `a = b = 3` parses to
`BinaryExpr(=, a, BinaryExpr(=, b, 3))`; and whenever the already-parsed
left operand of an assignment is not a bare identifier, `parse_assignment`
signals the fatal `invalid assignment target` error instead of building a
node. -/
theorem C2_assignment :
    parsed_program ("a = b = 3") =
      some (pexprProgram (pbin (pid ("a")) ("=") (pbin (pid ("b")) ("=") (pnum ("3")))))
  ∧ ∀ (f : Nat) (st : Lexer) (left : ASTNode) (st1 : Lexer),
      parse_equality f st = .ok left st1 → st1.type = TOKEN_EQUAL →
      ¬ left.kind = AST_IDENTIFIER →
      parse_assignment (f + 1) st = .err { line := st1.line, msg := assignTargetErrMsg } := by
  refine ⟨rfl, ?_⟩
  intro f st left st1 h1 h2 h3
  have h1' : (pfuns f).equality st = .ok left st1 := h1
  show (pfunsStep (pfuns f)).assignment st = _
  simp [pfunsStep, h1', pbind, h2, h3]

/-- Witness for C2: in `1 = 2` the left operand of the assignment is the
number literal `1`, and the parser faults at line 1. -/
theorem C2_assignment_witness :
    parse_assignment 51 (pinit ("1 = 2")) = .err { line := 1, msg := assignTargetErrMsg } :=
  C2_assignment.2 50 (pinit ("1 = 2")) (ast_new_number (("1").data) 1)
    { src := (" 2").data, line := 1, type := TOKEN_EQUAL, lexeme := ("=").data }
    (by rfl) (by rfl) (by decide)

theorem symbolFind_none_iff (head : List Symbol) (n : List Char) :
    symbolFind head n = none ↔ head.any (fun s => decide (s.name = n)) = false := by
  induction head with
  | nil => simp [symbolFind]
  | cons s rest ih =>
    by_cases hs : s.name = n <;> simp [symbolFind, hs, ih]

theorem symbolFind_eq_none_of (head : List Symbol) (n : List Char)
    (h : ∀ s ∈ head, ¬ s.name = n) : symbolFind head n = none := by
  rw [symbolFind_none_iff]
  simp only [List.any_eq_false]
  intro s hs
  simp [h s hs]

theorem lookup_none_iff :
    ∀ (t : Option SymbolTable) (n : List Char),
      symtab_lookup t n = none ↔ boundInChain t n = false
  | none, _ => by simp [symtab_lookup, boundInChain]
  | some (.mk head parent), n => by
    have ih := lookup_none_iff parent n
    cases hf : symbolFind head n with
    | some s =>
      have hb : ¬ head.any (fun s => decide (s.name = n)) = false := by
        rw [← symbolFind_none_iff]
        simp [hf]
      simp [symtab_lookup, boundInChain, hf, hb]
    | none =>
      have hb : head.any (fun s => decide (s.name = n)) = false :=
        (symbolFind_none_iff head n).1 hf
      simp [symtab_lookup, boundInChain, hf, hb, ih]

/-- Claim C5: `symtab_add` prepends, so a duplicate name in the same scope
shadows rather than fails; `symtab_lookup` scans the current scope
most-recently-added-first, recurses to the parent on a miss, and yields the
null result exactly when the name is absent from the whole chain. -/
theorem C5_symbol_table :
    (∀ (t : SymbolTable) (n : List Char) (ty : SimCLType),
        symtab_lookup (some (symtab_add t n ty)) n = some { name := n, type := ty })
  ∧ (∀ (t : SymbolTable) (n : List Char) (ty1 ty2 : SimCLType),
        symtab_lookup (some (symtab_add (symtab_add t n ty1) n ty2)) n =
          some { name := n, type := ty2 })
  ∧ (∀ (head : List Symbol) (parent : Option SymbolTable) (n : List Char),
        (∀ s ∈ head, ¬ s.name = n) →
        symtab_lookup (some (.mk head parent)) n = symtab_lookup parent n)
  ∧ (∀ (t : Option SymbolTable) (n : List Char),
        symtab_lookup t n = none ↔ boundInChain t n = false) := by
  refine ⟨?_, ?_, ?_, lookup_none_iff⟩
  · intro t n ty
    simp [symtab_add, symtab_lookup, symbolFind]
  · intro t n ty1 ty2
    simp [symtab_add, symtab_lookup, symbolFind]
  · intro head parent n h
    have hf := symbolFind_eq_none_of head n h
    simp [symtab_lookup, hf]

/-- Witness for C5: a scope binding only `x` misses `y` and defers to its
(null) parent. -/
theorem C5_symbol_table_witness :
    symtab_lookup (some (SymbolTable.mk [{ name := ("x").data, type := TYPE_INT }] none))
      (("y").data) = symtab_lookup none (("y").data) :=
  C5_symbol_table.2.2.1 [{ name := ("x").data, type := TYPE_INT }] none (("y").data)
    (by decide)

theorem addParams_trace :
    ∀ (t : SymbolTable) (pm : Option ASTNode),
      (addParams t pm).2 = (chainNames pm).map (fun q => SemEvent.addSym q TYPE_UNKNOWN)
  | _, none => by simp [addParams, chainNames]
  | t, some (.mk _ nx _ _ nm _ _ _ _ _ _) => by
    have ih := addParams_trace (symtab_add t nm TYPE_UNKNOWN) nx
    simp [addParams, chainNames, ih]

/-- Claim C6: during semantic analysis a `Let` node registers its name as
`Unknown` in the current scope and then recurses into its initializer in
that extended scope; a `Function` node registers its name as `Function` in
the enclosing scope (which is also the net effect on that scope), then
pushes a fresh scope, registers every parameter as `Unknown` there,
analyzes the body in that scope, and pops it. -/
theorem C6_semantic_let_function :
    (∀ (f : Nat) (cur : SymbolTable) (nx ch v pm lf rt : Option ASTNode) (l : Nat)
        (nm o lit : List Char),
      (analyze_node (f + 1) cur (some (.mk AST_LET nx l ch nm v pm o lf rt lit))).2 =
        SemEvent.addSym nm TYPE_UNKNOWN ::
          (analyze_node f (symtab_add cur nm TYPE_UNKNOWN) v).2 ∧
      (analyze_node (f + 1) cur (some (.mk AST_LET nx l ch nm v pm o lf rt lit))).1 =
        (analyze_node f (symtab_add cur nm TYPE_UNKNOWN) v).1)
  ∧ (∀ (f : Nat) (cur : SymbolTable) (nx ch v pm lf rt : Option ASTNode) (l : Nat)
        (nm o lit : List Char),
      (analyze_node (f + 1) cur (some (.mk AST_FUNCTION nx l ch nm v pm o lf rt lit))).1 =
        symtab_add cur nm TYPE_FUNCTION ∧
      (analyze_node (f + 1) cur (some (.mk AST_FUNCTION nx l ch nm v pm o lf rt lit))).2 =
        SemEvent.addSym nm TYPE_FUNCTION :: SemEvent.enterScope ::
          ((chainNames pm).map (fun q => SemEvent.addSym q TYPE_UNKNOWN) ++
           (analyze_node f
             (addParams (symtab_new (some (symtab_add cur nm TYPE_FUNCTION))) pm).1 v).2 ++
           [SemEvent.exitScope])) := by
  constructor
  · intro f cur nx ch v pm lf rt l nm o lit
    exact ⟨rfl, rfl⟩
  · intro f cur nx ch v pm lf rt l nm o lit
    refine ⟨rfl, ?_⟩
    have hp := addParams_trace (symtab_new (some (symtab_add cur nm TYPE_FUNCTION))) pm
    simp [analyze_node, ASTNode.kind, ASTNode.name, ASTNode.value, ASTNode.params, hp]

theorem ASTNode.withChild_kind (n : ASTNode) (c : Option ASTNode) :
    (n.withChild c).kind = n.kind := by
  cases n
  rfl

theorem progLoop_kind :
    ∀ (f : Nat) (root : ASTNode) (st : Lexer) (res : ASTNode) (stF : Lexer),
      (pfuns f).progLoop root st = .ok res stF → res.kind = root.kind := by
  intro f
  induction f with
  | zero => intro root st res stF h; simp [pfuns, pfunsZero] at h
  | succ f ih =>
    intro root st res stF h
    simp only [pfuns, pfunsStep] at h
    by_cases he : st.type ≠ TOKEN_EOF
    · rw [if_pos he] at h
      obtain ⟨a, st1, _, hf⟩ := pbind_ok_inv h
      cases a with
      | none => exact ih root (advance st1) res stF hf
      | some s =>
        simp only at hf
        cases hc : root.child with
        | none =>
          rw [hc] at hf
          have hkind := ih (root.withChild (some s)) st1 res stF hf
          rwa [ASTNode.withChild_kind] at hkind
        | some hnode =>
          rw [hc] at hf
          have hkind := ih (root.withChild (some (append_to hnode s))) st1 res stF hf
          rwa [ASTNode.withChild_kind] at hkind
    · rw [if_neg he] at h
      simp only [PResult.ok.injEq] at h
      rw [← h.1]

/-- Claim C9: every AST the parser hands over is rooted in a `Program`
node, and after the semantic pass the context's global symbol table is the
untouched fresh root scope — it holds zero bindings, because all top-level
declarations went into the child scope pushed for the `Program` node and
freed before returning. -/
theorem C9_globals_empty :
    ∀ (fp : Nat) (st0 stF : Lexer) (root : ASTNode) (fa : Nat),
      parser_parse fp st0 = .ok root stF →
      root.kind = AST_PROGRAM ∧
      (semantic_run fa (some root)).1.globals = symtab_new none ∧
      (semantic_run fa (some root)).1.globals.head = [] := by
  intro fp st0 stF root fa h
  have hk : root.kind = AST_PROGRAM := by
    cases fp with
    | zero => simp [parser_parse] at h
    | succ f =>
      have h' : (pfuns f).progLoop (ast_new_program st0.line) st0 = .ok root stF := h
      exact progLoop_kind f (ast_new_program st0.line) st0 root stF h'
  have hg : (semantic_run fa (some root)).1.globals = symtab_new none := by
    cases fa with
    | zero => simp [semantic_run, semantic_analyze, semantic_init, analyze_node]
    | succ f => simp [semantic_run, semantic_analyze, semantic_init, analyze_node, hk]
  exact ⟨hk, hg, by rw [hg]; rfl⟩

/-- Witness for C9: the empty source parses to a bare `Program` node whose
analysis leaves the global table empty. -/
theorem C9_globals_empty_witness :
    (ast_new_program 1).kind = AST_PROGRAM ∧
    (semantic_run 5 (some (ast_new_program 1))).1.globals = symtab_new none ∧
    (semantic_run 5 (some (ast_new_program 1))).1.globals.head = [] :=
  C9_globals_empty 2 (pinit ("")) { src := [], line := 1, type := TOKEN_EOF, lexeme := [] }
    (ast_new_program 1) 5 (by rfl)

theorem arg_loop_at_rparen (f : Nat) (head : Option ASTNode) (st : Lexer)
    (h : st.type = TOKEN_RPAREN) : arg_loop (f + 1) head st = .ok head st := by
  show (pfunsStep (pfuns f)).argLoop head st = _
  simp [pfunsStep, h]

theorem param_loop_at_rparen (f : Nat) (head : Option ASTNode) (st : Lexer)
    (h : st.type = TOKEN_RPAREN) : param_loop (f + 1) head st = .ok head st := by
  show (pfunsStep (pfuns f)).paramLoop head st = _
  simp [pfunsStep, h]

/-- Claim C10: a single trailing comma immediately before the closing
parenthesis of a call's argument list or a function's parameter list is
accepted and yields exactly the same list as the source without it: the
loops return the same accumulated head in the same final state (at the
closing parenthesis) whether or not one trailing comma was consumed, and
the whole-program parses of such sources coincide. -/
theorem C10_trailing_comma :
    (∀ (f : Nat) (st st1 : Lexer) (expr : ASTNode) (head : Option ASTNode),
        ¬ st.type = TOKEN_RPAREN → ¬ st.type = TOKEN_EOF →
        parse_expression (f + 1) st = .ok expr st1 →
        st1.type = TOKEN_COMMA → (advance st1).type = TOKEN_RPAREN →
        arg_loop (f + 2) head st = .ok (some (ast_list_append head expr)) (advance st1))
  ∧ (∀ (f : Nat) (st st1 : Lexer) (expr : ASTNode) (head : Option ASTNode),
        ¬ st.type = TOKEN_RPAREN → ¬ st.type = TOKEN_EOF →
        parse_expression (f + 1) st = .ok expr st1 →
        st1.type = TOKEN_RPAREN →
        arg_loop (f + 2) head st = .ok (some (ast_list_append head expr)) st1)
  ∧ (∀ (f : Nat) (st : Lexer) (head : Option ASTNode),
        st.type = TOKEN_IDENTIFIER → (advance st).type = TOKEN_COMMA →
        (advance (advance st)).type = TOKEN_RPAREN →
        param_loop (f + 2) head st =
          .ok (some (ast_list_append head (ast_new_identifier st.lexeme st.line)))
            (advance (advance st)))
  ∧ (∀ (f : Nat) (st : Lexer) (head : Option ASTNode),
        st.type = TOKEN_IDENTIFIER → (advance st).type = TOKEN_RPAREN →
        param_loop (f + 1) head st =
          .ok (some (ast_list_append head (ast_new_identifier st.lexeme st.line)))
            (advance st))
  ∧ parsed_program ("f(1, 2,);") =
      some (pexprProgram (ast_new_call (some (pid ("f")))
        (some ((pnum ("1")).withNext (some (pnum ("2"))))) 1))
  ∧ parsed_program ("f(1, 2);") =
      some (pexprProgram (ast_new_call (some (pid ("f")))
        (some ((pnum ("1")).withNext (some (pnum ("2"))))) 1))
  ∧ parsed_program ("function f(a, b,) \x7b return a; \x7d") =
      some ((ast_new_program 1).withChild (some (ast_new_function (("f").data)
        (some ((pid ("a")).withNext (some (pid ("b")))))
        (some ((ast_new_block 1).withChild (some (ast_new_return (some (pid ("a"))) 1)))) 1)))
  ∧ parsed_program ("function f(a, b) \x7b return a; \x7d") =
      some ((ast_new_program 1).withChild (some (ast_new_function (("f").data)
        (some ((pid ("a")).withNext (some (pid ("b")))))
        (some ((ast_new_block 1).withChild (some (ast_new_return (some (pid ("a"))) 1)))) 1))) := by
  refine ⟨?_, ?_, ?_, ?_, rfl, rfl, rfl, rfl⟩
  · intro f st st1 expr head h1 h2 h3 h4 h5
    have h3' : (pfuns (f + 1)).expression st = .ok expr st1 := h3
    show (pfunsStep (pfuns (f + 1))).argLoop head st = _
    simp only [pfunsStep]
    rw [if_pos ⟨h1, h2⟩, h3']
    simp only [pbind]
    rw [if_pos h4]
    exact arg_loop_at_rparen f _ _ h5
  · intro f st st1 expr head h1 h2 h3 h4
    have h3' : (pfuns (f + 1)).expression st = .ok expr st1 := h3
    show (pfunsStep (pfuns (f + 1))).argLoop head st = _
    simp only [pfunsStep]
    rw [if_pos ⟨h1, h2⟩, h3']
    simp only [pbind]
    rw [if_neg (by simp [h4])]
  · intro f st head h1 h2 h3
    show (pfunsStep (pfuns (f + 1))).paramLoop head st = _
    simp only [pfunsStep]
    rw [if_pos ⟨by simp [h1], by simp [h1]⟩, if_neg (by simp [h1]), if_pos h2]
    exact param_loop_at_rparen f _ _ h3
  · intro f st head h1 h2
    show (pfunsStep (pfuns f)).paramLoop head st = _
    simp only [pfunsStep]
    rw [if_pos ⟨by simp [h1], by simp [h1]⟩, if_neg (by simp [h1]),
      if_neg (by simp [h2])]

/-- Witness for C10: in `1,)` the expression `1` is parsed, the trailing
comma is consumed, and the argument loop stops at the closing parenthesis
with the one-element list. -/
theorem C10_trailing_comma_witness :
    arg_loop 11 none (pinit ("1,)")) =
      .ok (some (ast_list_append none (ast_new_number (("1").data) 1)))
        (advance { src := (")").data, line := 1, type := TOKEN_COMMA, lexeme := (",").data }) :=
  C10_trailing_comma.1 9 (pinit ("1,)"))
    { src := (")").data, line := 1, type := TOKEN_COMMA, lexeme := (",").data }
    (ast_new_number (("1").data) 1) none (by decide) (by decide) (by rfl) (by rfl) (by rfl)

/-- Counterexample to claim C3: a token the grammar does not expect at
statement position (`;` at the start) does not get discarded with the
parse continuing — the whole parse terminates with the fatal
primary-expression error. -/
theorem C3_counterexample :
    parser_parse 200 (pinit ("; let x = 1;")) =
      .err { line := 1, msg := primaryErrMsg ((";").data) } := rfl

/-- Claim C3 as amended: `parse_statement` never returns a null statement
(the expression fallback either produces a node or raises a fatal error),
so the one-token-skip recovery branches in `parser_parse` and
`parse_block` are unreachable, and an unexpected token at statement
position instead aborts the whole parse with the fatal
`unexpected token ... in primary expression` error. -/
theorem C3_fatal_instead_of_skip :
    (∀ (f : Nat) (st st1 : Lexer) (v : Option ASTNode),
        parse_statement f st = .ok v st1 → v.isSome = true)
  ∧ parser_parse 200 (pinit ("? 42;")) =
      .err { line := 1, msg := primaryErrMsg (("?").data) } := by
  refine ⟨?_, rfl⟩
  intro f st st1 v h
  cases f with
  | zero => exact absurd h (by simp [parse_statement, pfuns, pfunsZero])
  | succ f =>
    have h' : (pfunsStep (pfuns f)).stmt st = .ok v st1 := h
    simp only [pfunsStep] at h'
    repeat' split at h'
    all_goals
      obtain ⟨a, s2, -, hf⟩ := pbind_ok_inv h'
    all_goals
      simp only [PResult.ok.injEq] at hf
    all_goals
      rw [← hf.1]
    all_goals rfl

/-- Witness for C3: the lone statement `x` parses to a non-null
expression statement. -/
theorem C3_fatal_instead_of_skip_witness :
    (some (ast_new_expr_stmt (some (ast_new_identifier (("x").data) 1)) 1)).isSome = true :=
  C3_fatal_instead_of_skip.1 50 (pinit ("x"))
    { src := [], line := 1, type := TOKEN_EOF, lexeme := [] }
    (some (ast_new_expr_stmt (some (ast_new_identifier (("x").data) 1)) 1)) (by rfl)

theorem isPrefixOf_self_append (a b : List Char) : a.isPrefixOf (a ++ b) = true := by
  rw [List.isPrefixOf_iff_prefix]
  exact ⟨b, rfl⟩

theorem containsSub_prefix (a b : List Char) : containsSub a (a ++ b) = true := by
  rw [containsSub, List.any_eq_true]
  exact ⟨a ++ b, (List.mem_tails _ _).2 (List.suffix_refl _), isPrefixOf_self_append a b⟩

theorem containsSub_infix (a x b : List Char) : containsSub x (a ++ (x ++ b)) = true := by
  rw [containsSub, List.any_eq_true]
  exact ⟨x ++ b, (List.mem_tails _ _).2 ⟨a, rfl⟩, isPrefixOf_self_append x b⟩

/-- Counterexample to claim C4: the fatal error raised for `let = 5;` is
`expected identifier after 'let'`, whose full rendered diagnostic contains
no representation of the actually-found token (neither its lexeme `=` nor
its numeric kind 25) — so not every fatal message carries both the
expected and the found token. -/
theorem C4_counterexample :
    parser_parse 200 (pinit ("let = 5;")) = .err { line := 1, msg := letErrMsg }
  ∧ containsSub (("=").data) (render { line := 1, msg := letErrMsg }) = false
  ∧ containsSub (natDecimal (tokNat TOKEN_EQUAL)) (render { line := 1, msg := letErrMsg }) =
      false := ⟨rfl, rfl, rfl⟩

/-- Claim C4 as amended: every fatal parser error is rendered with the
1-based source line of the current token in its `Parser error (line L):`
prefix; an `expect` mismatch reports a message containing both the
expected token (its kind number) and the actually-found token (its kind
number and its lexeme); the identifier-after-`let`, function-name,
parameter-name and assignment-target errors instead carry a fixed message
that is the same whatever the found token is, so those messages omit it
(concretely so in the counterexample); and parsing `let = 5;` raises a
fatal error citing line 1 and `expected identifier`. -/
theorem C4_error_line_and_example :
    (∀ e : PError,
        containsSub ((("Parser error (line ").data ++ natDecimal e.line ++ ((")").data)))
          (render e) = true)
  ∧ (∀ (t : TokenType) (st : Lexer), ¬ st.type = t →
        expect t st = .err { line := st.line, msg := expectMsg t st.type st.lexeme } ∧
        containsSub (natDecimal (tokNat t)) (expectMsg t st.type st.lexeme) = true ∧
        containsSub (natDecimal (tokNat st.type)) (expectMsg t st.type st.lexeme) = true ∧
        containsSub st.lexeme (expectMsg t st.type st.lexeme) = true)
  ∧ (∀ (f : Nat) (st : Lexer), st.type = TOKEN_LET →
        ¬ (advance st).type = TOKEN_IDENTIFIER →
        parse_let (f + 1) st = .err { line := (advance st).line, msg := letErrMsg })
  ∧ (∀ (f : Nat) (st : Lexer), st.type = TOKEN_FUNCTION →
        ¬ (advance st).type = TOKEN_IDENTIFIER →
        parse_function (f + 1) st = .err { line := (advance st).line, msg := funcNameErrMsg })
  ∧ (∀ (f : Nat) (head : Option ASTNode) (st : Lexer),
        ¬ st.type = TOKEN_RPAREN → ¬ st.type = TOKEN_EOF → ¬ st.type = TOKEN_IDENTIFIER →
        param_loop (f + 1) head st = .err { line := st.line, msg := paramNameErrMsg })
  ∧ (∀ (f : Nat) (st : Lexer) (left : ASTNode) (st1 : Lexer),
        parse_equality f st = .ok left st1 → st1.type = TOKEN_EQUAL →
        ¬ left.kind = AST_IDENTIFIER →
        parse_assignment (f + 1) st = .err { line := st1.line, msg := assignTargetErrMsg })
  ∧ parser_parse 200 (pinit ("let = 5;")) = .err { line := 1, msg := letErrMsg }
  ∧ containsSub (("expected identifier").data) (render { line := 1, msg := letErrMsg }) =
      true := by
  refine ⟨?_, ?_, ?_, ?_, ?_, ?_, rfl, rfl⟩
  · intro e
    have hd : render e =
        ((("Parser error (line ").data ++ natDecimal e.line ++ ((")").data))) ++
          ((": ").data ++ e.msg) := by
      simp only [render, List.append_assoc]
      rfl
    rw [hd]
    exact containsSub_prefix _ _
  · intro t st h
    refine ⟨by simp [expect, h], ?_, ?_, ?_⟩
    · have hd : expectMsg t st.type st.lexeme =
          ("expected token ").data ++ (natDecimal (tokNat t) ++
            ((" but got ").data ++ (natDecimal (tokNat st.type) ++
              ((" (\x27").data ++ (st.lexeme ++ ("\x27)").data))))) := by
        simp [expectMsg, List.append_assoc]
      rw [hd]
      exact containsSub_infix _ _ _
    · have hd : expectMsg t st.type st.lexeme =
          (("expected token ").data ++ natDecimal (tokNat t) ++ (" but got ").data) ++
            (natDecimal (tokNat st.type) ++
              ((" (\x27").data ++ (st.lexeme ++ ("\x27)").data))) := by
        simp [expectMsg, List.append_assoc]
      rw [hd]
      exact containsSub_infix _ _ _
    · have hd : expectMsg t st.type st.lexeme =
          (("expected token ").data ++ natDecimal (tokNat t) ++ (" but got ").data ++
            natDecimal (tokNat st.type) ++ (" (\x27").data) ++
            (st.lexeme ++ ("\x27)").data) := by
        simp [expectMsg, List.append_assoc]
      rw [hd]
      exact containsSub_infix _ _ _
  · intro f st h1 h2
    show (pfunsStep (pfuns f)).letF st = _
    simp [pfunsStep, expect, h1, pbind, h2]
  · intro f st h1 h2
    show (pfunsStep (pfuns f)).functionF st = _
    simp [pfunsStep, expect, h1, pbind, h2]
  · intro f head st h1 h2 h3
    show (pfunsStep (pfuns f)).paramLoop head st = _
    simp [pfunsStep, h1, h2, h3]
  · intro f st left st1 h1 h2 h3
    have h1' : (pfuns f).equality st = .ok left st1 := h1
    show (pfunsStep (pfuns f)).assignment st = _
    simp [pfunsStep, h1', pbind, h2, h3]

/-- Witness for C4: in `let = 5;` the token after `let` is `=`, not an
identifier, so `parse_let` raises the fatal fixed-text error at line 1. -/
theorem C4_error_line_and_example_witness :
    parse_let 51 (pinit ("let = 5;")) = .err { line := 1, msg := letErrMsg } :=
  C4_error_line_and_example.2.2.1 50 (pinit ("let = 5;")) (by rfl) (by decide)

/-- Claim C7: the lexer never raises an error.  The two-character
operators `==`, `!=`, `<=`, `>=` are matched greedily before their
one-character prefixes; `=`, `<`, `>` not followed by `=` yield their
one-character tokens; `!` not followed by `=` and `.` not followed by a
digit fall through to the unknown fallback; and any character matching no
rule at all becomes a `TOKEN_UNKNOWN` token carrying exactly that one
character, with scanning positioned just past it. -/
theorem C7_lexer_never_errors :
    (∀ (rest : List Char) (l : Nat) (t0 : TokenType) (lx0 : List Char),
        lexer_next ⟨'=' :: '=' :: rest, l, t0, lx0⟩ = ⟨rest, l, TOKEN_EQEQ, ("==").data⟩)
  ∧ (∀ (rest : List Char) (l : Nat) (t0 : TokenType) (lx0 : List Char),
        lexer_next ⟨'!' :: '=' :: rest, l, t0, lx0⟩ = ⟨rest, l, TOKEN_NEQ, ("!=").data⟩)
  ∧ (∀ (rest : List Char) (l : Nat) (t0 : TokenType) (lx0 : List Char),
        lexer_next ⟨'<' :: '=' :: rest, l, t0, lx0⟩ = ⟨rest, l, TOKEN_LTE, ("<=").data⟩)
  ∧ (∀ (rest : List Char) (l : Nat) (t0 : TokenType) (lx0 : List Char),
        lexer_next ⟨'>' :: '=' :: rest, l, t0, lx0⟩ = ⟨rest, l, TOKEN_GTE, (">=").data⟩)
  ∧ (∀ (rest : List Char) (l : Nat) (t0 : TokenType) (lx0 : List Char),
        ¬ rest.headD nulChar = '=' →
        lexer_next ⟨'=' :: rest, l, t0, lx0⟩ = ⟨rest, l, TOKEN_EQUAL, ("=").data⟩)
  ∧ (∀ (rest : List Char) (l : Nat) (t0 : TokenType) (lx0 : List Char),
        ¬ rest.headD nulChar = '=' →
        lexer_next ⟨'<' :: rest, l, t0, lx0⟩ = ⟨rest, l, TOKEN_LT, ("<").data⟩)
  ∧ (∀ (rest : List Char) (l : Nat) (t0 : TokenType) (lx0 : List Char),
        ¬ rest.headD nulChar = '=' →
        lexer_next ⟨'>' :: rest, l, t0, lx0⟩ = ⟨rest, l, TOKEN_GT, (">").data⟩)
  ∧ (∀ (rest : List Char) (l : Nat) (t0 : TokenType) (lx0 : List Char),
        ¬ rest.headD nulChar = '=' →
        lexer_next ⟨'!' :: rest, l, t0, lx0⟩ = ⟨rest, l, TOKEN_UNKNOWN, ("!").data⟩)
  ∧ (∀ (rest : List Char) (l : Nat) (t0 : TokenType) (lx0 : List Char),
        isdigit (rest.headD nulChar) = false →
        lexer_next ⟨'.' :: rest, l, t0, lx0⟩ = ⟨rest, l, TOKEN_UNKNOWN, (".").data⟩)
  ∧ (∀ (c : Char) (rest : List Char) (l : Nat) (t0 : TokenType) (lx0 : List Char),
        isalpha c = false → ¬ c = '_' → isdigit c = false → ¬ c = '.' → ¬ c = '"' →
        ¬ c = '=' → ¬ c = '!' → ¬ c = '<' → ¬ c = '>' →
        ¬ c = '+' → ¬ c = '-' → ¬ c = '*' → ¬ c = '/' → ¬ c = '%' →
        ¬ c = lbraceChar → ¬ c = rbraceChar → ¬ c = '(' → ¬ c = ')' →
        ¬ c = ',' → ¬ c = ';' →
        ¬ c = ' ' → ¬ c = '\t' → ¬ c = '\r' → ¬ c = '\n' →
        lexer_next ⟨c :: rest, l, t0, lx0⟩ = ⟨rest, l, TOKEN_UNKNOWN, [c]⟩) := by
  refine ⟨fun rest l t0 lx0 => rfl, fun rest l t0 lx0 => rfl, fun rest l t0 lx0 => rfl,
    fun rest l t0 lx0 => rfl, ?_, ?_, ?_, ?_, ?_, ?_⟩
  · intro rest l t0 lx0 h
    have he : lexer_next ⟨'=' :: rest, l, t0, lx0⟩ =
        if rest.headD nulChar = '=' then ⟨rest.tail, l, TOKEN_EQEQ, ("==").data⟩
        else ⟨rest, l, TOKEN_EQUAL, ("=").data⟩ := rfl
    rw [he, if_neg h]
  · intro rest l t0 lx0 h
    have he : lexer_next ⟨'<' :: rest, l, t0, lx0⟩ =
        if rest.headD nulChar = '=' then ⟨rest.tail, l, TOKEN_LTE, ("<=").data⟩
        else ⟨rest, l, TOKEN_LT, ("<").data⟩ := rfl
    rw [he, if_neg h]
  · intro rest l t0 lx0 h
    have he : lexer_next ⟨'>' :: rest, l, t0, lx0⟩ =
        if rest.headD nulChar = '=' then ⟨rest.tail, l, TOKEN_GTE, (">=").data⟩
        else ⟨rest, l, TOKEN_GT, (">").data⟩ := rfl
    rw [he, if_neg h]
  · intro rest l t0 lx0 h
    have he : lexer_next ⟨'!' :: rest, l, t0, lx0⟩ =
        if decide (rest.headD nulChar = '=') = true then ⟨rest.tail, l, TOKEN_NEQ, ("!=").data⟩
        else ⟨rest, l, TOKEN_UNKNOWN, ("!").data⟩ := rfl
    rw [he, if_neg (by simpa using h)]
  · intro rest l t0 lx0 h
    have he : lexer_next ⟨'.' :: rest, l, t0, lx0⟩ =
        if isdigit (rest.headD nulChar) = true then lexer_read_number_token ('.' :: rest) l
        else ⟨rest, l, TOKEN_UNKNOWN, (".").data⟩ := rfl
    rw [he, if_neg (by simpa using h)]
  · intro c rest l t0 lx0 ha hu hd hdot hq heq hbang hlt hgt hplus hminus hstar hslash
      hpct hlb hrb hlp hrp hcomma hsemi hsp htab hcr hnl
    simp only [lexer_next, lexer_skip_whitespace_and_comments, List.length_cons]
    simp only [skipWSF, scanToken]
    simp [ha, hu, hd, hdot, hq, heq, hbang, hlt, hgt, hplus, hminus, hstar, hslash,
      hpct, hlb, hrb, hlp, hrp, hcomma, hsemi, hsp, htab, hcr, hnl]

theorem takeWhile_append_of_all {p : Char → Bool} (a x : List Char) (h : a.all p = true) :
    (a ++ x).takeWhile p = a ++ x.takeWhile p := by
  induction a with
  | nil => simp
  | cons c t ih =>
    simp only [List.all_cons, Bool.and_eq_true] at h
    simp [List.takeWhile_cons, h.1, ih h.2]

theorem dropWhile_append_of_all {p : Char → Bool} (a x : List Char) (h : a.all p = true) :
    (a ++ x).dropWhile p = x.dropWhile p := by
  induction a with
  | nil => simp
  | cons c t ih =>
    simp only [List.all_cons, Bool.and_eq_true] at h
    simp [List.dropWhile_cons, h.1, ih h.2]

theorem takeWhile_of_all {p : Char → Bool} (a : List Char) (h : a.all p = true) :
    a.takeWhile p = a := by
  have := takeWhile_append_of_all a [] h
  simpa using this

theorem dropWhile_of_all {p : Char → Bool} (a : List Char) (h : a.all p = true) :
    a.dropWhile p = [] := by
  have := dropWhile_append_of_all a [] h
  simpa using this

theorem numFrac_split (r : List Char) : (numFrac r).1 ++ (numFrac r).2 = r := by
  by_cases h : r.headD nulChar = '.'
  · rcases r with _ | ⟨c, t⟩
    · exact absurd h (by decide)
    · simp only [List.headD_cons] at h
      subst h
      simp only [numFrac, List.headD_cons, List.tail_cons]
      simp [List.takeWhile_append_dropWhile]
  · simp only [numFrac]
    rw [if_neg h]
    rfl

theorem numExpTail_split (r : List Char) : (numExpTail r).1 ++ (numExpTail r).2 = r := by
  by_cases h : r.headD nulChar = '+' ∨ r.headD nulChar = '-'
  · rcases r with _ | ⟨c, t⟩
    · exact absurd h (by decide)
    · simp only [numExpTail]
      rw [if_pos h]
      simp [List.headD_cons, List.tail_cons, List.takeWhile_append_dropWhile]
  · simp only [numExpTail]
    rw [if_neg h]
    exact List.takeWhile_append_dropWhile isdigit r

theorem numExp_split (r : List Char) : (numExp r).1 ++ (numExp r).2 = r := by
  by_cases h : r.headD nulChar = 'e' ∨ r.headD nulChar = 'E'
  · rcases r with _ | ⟨c, t⟩
    · exact absurd h (by decide)
    · simp only [numExp]
      rw [if_pos h]
      simp only [List.headD_cons, List.tail_cons, List.cons_append, List.cons.injEq, true_and]
      exact numExpTail_split t
  · simp only [numExp]
    rw [if_neg h]
    rfl

theorem read_number_split (cs : List Char) :
    (lexer_read_number cs).1 ++ (lexer_read_number cs).2 = cs := by
  simp only [lexer_read_number]
  rw [List.append_assoc, numExp_split, List.append_assoc, numFrac_split,
    List.takeWhile_append_dropWhile]

theorem numFrac_shape (r : List Char) : FracShape (numFrac r).1 := by
  by_cases h : r.headD nulChar = '.'
  · right
    refine ⟨r.tail.takeWhile isdigit, ?_, ?_⟩
    · simp only [numFrac]
      rw [if_pos h]
    · simpa [allDigits] using List.all_takeWhile
  · left
    simp only [numFrac]
    rw [if_neg h]

theorem numExpTail_shape (r : List Char) : ExpTailShape (numExpTail r).1 := by
  by_cases h : r.headD nulChar = '+' ∨ r.headD nulChar = '-'
  · left
    refine ⟨r.headD nulChar, r.tail.takeWhile isdigit, h, ?_, ?_⟩
    · simp only [numExpTail]
      rw [if_pos h]
    · simpa [allDigits] using List.all_takeWhile
  · right
    simp only [numExpTail]
    rw [if_neg h]
    simpa [allDigits] using List.all_takeWhile

theorem numExp_shape (r : List Char) : ExpShape (numExp r).1 := by
  by_cases h : r.headD nulChar = 'e' ∨ r.headD nulChar = 'E'
  · right
    refine ⟨r.headD nulChar, (numExpTail r.tail).1, h, ?_, numExpTail_shape _⟩
    simp only [numExp]
    rw [if_pos h]
  · left
    simp only [numExp]
    rw [if_neg h]

theorem read_number_shape (cs : List Char) : NumText (lexer_read_number cs).1 :=
  ⟨cs.takeWhile isdigit, (numFrac (cs.dropWhile isdigit)).1,
    (numExp (numFrac (cs.dropWhile isdigit)).2).1, rfl,
    by simpa [allDigits] using List.all_takeWhile, numFrac_shape _, numExp_shape _⟩

theorem read_number_start (cs : List Char) (h : numStart cs) :
    numStart (lexer_read_number cs).1 := by
  rcases h with ⟨d, t, rfl, hd⟩ | ⟨d, t, rfl, hd⟩
  · left
    have h1 : (d :: t).takeWhile isdigit = d :: t.takeWhile isdigit := by
      simp [List.takeWhile_cons, hd]
    refine ⟨d, t.takeWhile isdigit ++ (numFrac ((d :: t).dropWhile isdigit)).1 ++
      (numExp (numFrac ((d :: t).dropWhile isdigit)).2).1, ?_, hd⟩
    simp only [lexer_read_number, h1]
    simp [List.cons_append]
  · right
    have h0 : ('.' :: d :: t).takeWhile isdigit = [] := by
      simp [List.takeWhile_cons, (by decide : isdigit '.' = false)]
    have h0' : ('.' :: d :: t).dropWhile isdigit = '.' :: d :: t := by
      simp [List.dropWhile_cons, (by decide : isdigit '.' = false)]
    have hF : (numFrac ('.' :: d :: t)).1 = '.' :: d :: t.takeWhile isdigit := by
      simp [numFrac, List.headD_cons, List.tail_cons, List.takeWhile_cons, hd]
    refine ⟨d, t.takeWhile isdigit ++ (numExp (numFrac ('.' :: d :: t)).2).1, ?_, hd⟩
    simp only [lexer_read_number, h0, h0', hF]
    simp [List.cons_append]

theorem frac_exp_head_not_digit (b c : List Char) (hB : FracShape b) (hC : ExpShape c) :
    (b ++ c).takeWhile isdigit = [] ∧ (b ++ c).dropWhile isdigit = b ++ c := by
  rcases hB with rfl | ⟨bs, rfl, _⟩
  · rcases hC with rfl | ⟨e, t, he, rfl, _⟩
    · simp
    · rcases he with rfl | rfl <;>
        simp [List.takeWhile_cons, List.dropWhile_cons, (by decide : isdigit 'e' = false),
          (by decide : isdigit 'E' = false)]
  · simp [List.takeWhile_cons, List.dropWhile_cons, (by decide : isdigit '.' = false)]

theorem expTail_complete (t : List Char) (ht : ExpTailShape t) : numExpTail t = (t, []) := by
  rcases ht with ⟨s, ds, hs, rfl, hds⟩ | ht
  · simp only [numExpTail]
    rw [if_pos (by simpa [List.headD_cons] using hs)]
    simp [List.headD_cons, List.tail_cons, takeWhile_of_all ds hds, dropWhile_of_all ds hds]
  · by_cases hh : t.headD nulChar = '+' ∨ t.headD nulChar = '-'
    · exfalso
      rcases t with _ | ⟨c, t'⟩
      · exact absurd hh (by decide)
      · simp only [List.headD_cons] at hh
        simp only [allDigits, List.all_cons, Bool.and_eq_true] at ht
        rcases hh with rfl | rfl
        · exact absurd ht.1 (by decide)
        · exact absurd ht.1 (by decide)
    · simp only [numExpTail]
      rw [if_neg hh, takeWhile_of_all t ht, dropWhile_of_all t ht]

theorem numExp_complete (c : List Char) (hC : ExpShape c) : numExp c = (c, []) := by
  rcases hC with rfl | ⟨e, t, he, rfl, ht⟩
  · simp only [numExp]
    rw [if_neg (by decide)]
  · simp only [numExp]
    rw [if_pos (by simpa [List.headD_cons] using he)]
    simp [List.headD_cons, List.tail_cons, expTail_complete t ht]

theorem numFrac_complete (b c : List Char) (hB : FracShape b) (hC : ExpShape c) :
    numFrac (b ++ c) = (b, c) := by
  rcases hB with rfl | ⟨bs, rfl, hbs⟩
  · rw [List.nil_append]
    rcases hC with rfl | ⟨e, t, he, rfl, _⟩
    · simp only [numFrac]
      rw [if_neg (by decide)]
    · simp only [numFrac]
      rw [if_neg (by rcases he with rfl | rfl <;> simp [List.headD_cons])]
  · rw [List.cons_append]
    simp only [numFrac, List.headD_cons, List.tail_cons, if_true]
    rw [takeWhile_append_of_all bs c hbs, dropWhile_append_of_all bs c hbs]
    have h3 : c.takeWhile isdigit = [] ∧ c.dropWhile isdigit = c := by
      have := frac_exp_head_not_digit [] c (Or.inl rfl) hC
      simpa using this
    rw [h3.1, h3.2, List.append_nil]

theorem scan_complete (w : List Char) (h : NumText w) : lexer_read_number w = (w, []) := by
  obtain ⟨a, b, c, rfl, hA, hB, hC⟩ := h
  have hbc := frac_exp_head_not_digit b c hB hC
  have h1 : (a ++ b ++ c).takeWhile isdigit = a := by
    rw [List.append_assoc, takeWhile_append_of_all a (b ++ c) hA, hbc.1, List.append_nil]
  have h2 : (a ++ b ++ c).dropWhile isdigit = b ++ c := by
    rw [List.append_assoc, dropWhile_append_of_all a (b ++ c) hA, hbc.2]
  have hF : numFrac (b ++ c) = (b, c) := numFrac_complete b c hB hC
  have hE : numExp c = (c, []) := numExp_complete c hC
  simp only [lexer_read_number, h1, h2, hF, hE]

theorem allDigits_take (a : List Char) (n : Nat) (h : allDigits a = true) :
    allDigits (a.take n) = true := by
  simp only [allDigits, List.all_eq_true] at *
  intro x hx
  exact h x (List.take_subset n a hx)

theorem FracShape_take (b : List Char) (m : Nat) (h : FracShape b) : FracShape (b.take m) := by
  rcases h with rfl | ⟨bs, rfl, hbs⟩
  · left; simp
  · cases m with
    | zero => left; simp
    | succ m =>
      right
      exact ⟨bs.take m, by simp [List.take_succ_cons], allDigits_take bs m hbs⟩

theorem ExpTailShape_take (t : List Char) (k : Nat) (h : ExpTailShape t) :
    ExpTailShape (t.take k) := by
  rcases h with ⟨s, ds, hs, rfl, hds⟩ | h
  · cases k with
    | zero => right; simp [allDigits]
    | succ k =>
      left
      exact ⟨s, ds.take k, hs, by simp [List.take_succ_cons], allDigits_take ds k hds⟩
  · right; exact allDigits_take t k h

theorem ExpShape_take (c : List Char) (k : Nat) (h : ExpShape c) : ExpShape (c.take k) := by
  rcases h with rfl | ⟨e, t, he, rfl, ht⟩
  · left; simp
  · cases k with
    | zero => left; simp
    | succ k =>
      right
      exact ⟨e, t.take k, he, by simp [List.take_succ_cons], ExpTailShape_take t k ht⟩

theorem NumText_take (w : List Char) (n : Nat) (h : NumText w) : NumText (w.take n) := by
  obtain ⟨a, b, c, rfl, hA, hB, hC⟩ := h
  refine ⟨a.take n, b.take (n - a.length), c.take (n - (a ++ b).length), ?_,
    allDigits_take a n hA, FracShape_take _ _ hB, ExpShape_take _ _ hC⟩
  rw [List.take_append_eq_append_take, List.take_append_eq_append_take]

theorem numStart_take (w : List Char) (n : Nat) (h : numStart w) (h2 : 2 ≤ n) :
    numStart (w.take n) := by
  obtain ⟨k, rfl⟩ := Nat.exists_eq_add_of_le h2
  have e1 : 2 + k = (1 + k) + 1 := by omega
  have e2 : 1 + k = k + 1 := by omega
  rcases h with ⟨d, t, rfl, hd⟩ | ⟨d, t, rfl, hd⟩
  · left
    exact ⟨d, t.take (1 + k), by rw [e1, List.take_succ_cons], hd⟩
  · right
    exact ⟨d, t.take k, by rw [e1, List.take_succ_cons, e2, List.take_succ_cons], hd⟩

set_option maxHeartbeats 1000000 in
theorem keywordType_ne_number (s : List Char) : ¬ keywordType s = TOKEN_NUMBER := by
  simp only [keywordType]
  split_ifs <;> decide

/-- Only the number branch of `scanToken` produces a `TOKEN_NUMBER`, and it
requires a digit start (or a dot followed by a digit). -/
theorem scanToken_number_inv (cs : List Char) (l : Nat)
    (h : (scanToken cs l).type = TOKEN_NUMBER) :
    ∃ c rest, cs = c :: rest ∧
      (isdigit c = true ∨ (c = '.' ∧ isdigit (rest.headD nulChar) = true)) ∧
      scanToken cs l = lexer_read_number_token (c :: rest) l := by
  rcases cs with _ | ⟨c, rest⟩
  · simp [scanToken] at h
  · by_cases h1 : (isalpha c || c = '_') = true
    · exfalso
      simp only [scanToken] at h
      rw [if_pos h1] at h
      simp only [lexer_read_identifier_or_keyword] at h
      exact keywordType_ne_number _ h
    · by_cases h2 : (isdigit c || (c = '.' && isdigit (rest.headD nulChar))) = true
      · refine ⟨c, rest, rfl, by simpa using h2, ?_⟩
        simp only [scanToken]
        rw [if_neg h1, if_pos h2]
      · exfalso
        simp only [scanToken] at h
        rw [if_neg h1, if_neg h2] at h
        by_cases h3 : c = '"'
        · rw [if_pos h3] at h
          simp [lexer_read_string_token] at h
        · rw [if_neg h3] at h
          by_cases h4 : c = '='
          · rw [if_pos h4] at h
            by_cases h5 : rest.headD nulChar = '='
            · rw [if_pos h5] at h; simp at h
            · rw [if_neg h5] at h; simp at h
          · rw [if_neg h4] at h
            by_cases h6 : (c = '!' && rest.headD nulChar = '=') = true
            · rw [if_pos h6] at h; simp at h
            · rw [if_neg h6] at h
              by_cases h7 : c = '<'
              · rw [if_pos h7] at h
                by_cases h8 : rest.headD nulChar = '='
                · rw [if_pos h8] at h; simp at h
                · rw [if_neg h8] at h; simp at h
              · rw [if_neg h7] at h
                by_cases h9 : c = '>'
                · rw [if_pos h9] at h
                  by_cases h10 : rest.headD nulChar = '='
                  · rw [if_pos h10] at h; simp at h
                  · rw [if_neg h10] at h; simp at h
                · rw [if_neg h9] at h
                  by_cases h11 : c = '+'
                  · rw [if_pos h11] at h; simp at h
                  · rw [if_neg h11] at h
                    by_cases h12 : c = '-'
                    · rw [if_pos h12] at h; simp at h
                    · rw [if_neg h12] at h
                      by_cases h13 : c = '*'
                      · rw [if_pos h13] at h; simp at h
                      · rw [if_neg h13] at h
                        by_cases h14 : c = '/'
                        · rw [if_pos h14] at h; simp at h
                        · rw [if_neg h14] at h
                          by_cases h15 : c = '%'
                          · rw [if_pos h15] at h; simp at h
                          · rw [if_neg h15] at h
                            by_cases h16 : c = lbraceChar
                            · rw [if_pos h16] at h; simp at h
                            · rw [if_neg h16] at h
                              by_cases h17 : c = rbraceChar
                              · rw [if_pos h17] at h; simp at h
                              · rw [if_neg h17] at h
                                by_cases h18 : c = '('
                                · rw [if_pos h18] at h; simp at h
                                · rw [if_neg h18] at h
                                  by_cases h19 : c = ')'
                                  · rw [if_pos h19] at h; simp at h
                                  · rw [if_neg h19] at h
                                    by_cases h20 : c = ','
                                    · rw [if_pos h20] at h; simp at h
                                    · rw [if_neg h20] at h
                                      by_cases h21 : c = ';'
                                      · rw [if_pos h21] at h; simp at h
                                      · rw [if_neg h21] at h; simp at h

theorem isdigit_not_isalpha {c : Char} (h : isdigit c = true) : isalpha c = false := by
  simp only [isdigit, Bool.and_eq_true, decide_eq_true_eq] at h
  rw [Bool.eq_false_iff]
  intro hcontra
  simp only [isalpha, Bool.or_eq_true, Bool.and_eq_true, decide_eq_true_eq] at hcontra
  omega

theorem isdigit_ne {c x : Char} (h : isdigit c = true) (hx : isdigit x = false) : ¬ c = x := by
  intro he
  rw [he, hx] at h
  exact Bool.false_ne_true h

theorem skipWS_noop (c : Char) (rest : List Char) (l : Nat)
    (h1 : ¬ c = ' ') (h2 : ¬ c = '\t') (h3 : ¬ c = '\r') (h4 : ¬ c = '\n') (h5 : ¬ c = '/') :
    lexer_skip_whitespace_and_comments (c :: rest) l = (c :: rest, l) := by
  simp only [lexer_skip_whitespace_and_comments, List.length_cons]
  simp only [skipWSF]
  rw [if_neg (by simp [h1, h2, h3]), if_neg h4, if_neg (by simp [h5]), if_neg (by simp [h5])]

/-- Re-lexing a bounded, well-shaped number text in isolation yields a
number token with exactly that text and nothing left over. -/
theorem relex_number (t : List Char) (hNT : NumText t) (hst : numStart t)
    (hlen : t.length ≤ SIMCL_LEXEME_MAX - 1) :
    lexer_next (lexer_init t) = { src := [], line := 1, type := TOKEN_NUMBER, lexeme := t } := by
  have hread : lexer_read_number t = (t, []) := scan_complete t hNT
  rcases hst with ⟨d, tt, rfl, hd⟩ | ⟨d, tt, rfl, hd⟩
  · have hskip := skipWS_noop d tt 1
      (isdigit_ne hd (by decide)) (isdigit_ne hd (by decide)) (isdigit_ne hd (by decide))
      (isdigit_ne hd (by decide)) (isdigit_ne hd (by decide))
    have hnext : lexer_next (lexer_init (d :: tt)) = scanToken (d :: tt) 1 := by
      simp only [lexer_next, lexer_init, hskip]
    rw [hnext]
    have hb : scanToken (d :: tt) 1 = lexer_read_number_token (d :: tt) 1 := by
      simp only [scanToken]
      rw [if_neg (by simp [isdigit_not_isalpha hd, isdigit_ne hd (by decide : isdigit '_' = false)]),
        if_pos (by simp [hd])]
    rw [hb]
    simp only [lexer_read_number_token, hread, truncLex]
    rw [List.take_of_length_le hlen]
  · have hskip := skipWS_noop '.' (d :: tt) 1
      (by decide) (by decide) (by decide) (by decide) (by decide)
    have hnext : lexer_next (lexer_init ('.' :: d :: tt)) = scanToken ('.' :: d :: tt) 1 := by
      simp only [lexer_next, lexer_init, hskip]
    rw [hnext]
    have hb : scanToken ('.' :: d :: tt) 1 = lexer_read_number_token ('.' :: d :: tt) 1 := by
      simp only [scanToken]
      rw [if_neg (by decide), if_pos (by simp [List.headD_cons, hd])]
    rw [hb]
    simp only [lexer_read_number_token, hread, truncLex]
    rw [List.take_of_length_le hlen]

/-- Counterexample to claim C8: the lexeme captured for a STRING token has
its quotes stripped (and escapes processed), so re-lexing it in isolation
does not yield a STRING token: for source `"hi"` the lexeme is `hi`,
which re-lexes as an identifier. -/
theorem C8_counterexample :
    (lexer_next (lexer_init (("\"hi\"").data))).type = TOKEN_STRING
  ∧ (lexer_next (lexer_init (("\"hi\"").data))).lexeme = ("hi").data
  ∧ (lexer_next (lexer_init
      ((lexer_next (lexer_init (("\"hi\"").data))).lexeme))).type = TOKEN_IDENTIFIER
  ∧ ¬ TOKEN_IDENTIFIER = TOKEN_STRING := ⟨rfl, rfl, rfl, by decide⟩

/-- Claim C8 as amended: for every NUMBER token the lexer produces,
re-lexing the captured lexeme text by itself, in isolation, yields again a
NUMBER token with identical lexeme text.  (For STRING tokens the property
fails — see the counterexample.) -/
theorem C8_number_round_trip :
    ∀ (st st1 : Lexer), lexer_next st = st1 → st1.type = TOKEN_NUMBER →
      (lexer_next (lexer_init st1.lexeme)).type = TOKEN_NUMBER ∧
      (lexer_next (lexer_init st1.lexeme)).lexeme = st1.lexeme := by
  intro st st1 hlex htype
  subst hlex
  have hscan : lexer_next st =
      scanToken (lexer_skip_whitespace_and_comments st.src st.line).1
        (lexer_skip_whitespace_and_comments st.src st.line).2 := rfl
  rw [hscan] at htype ⊢
  obtain ⟨c, rest, hcs, hcond, heq⟩ :=
    scanToken_number_inv (lexer_skip_whitespace_and_comments st.src st.line).1
      (lexer_skip_whitespace_and_comments st.src st.line).2 htype
  rw [heq]
  have hlexeme : (lexer_read_number_token (c :: rest)
      (lexer_skip_whitespace_and_comments st.src st.line).2).lexeme =
      (lexer_read_number (c :: rest)).1.take (SIMCL_LEXEME_MAX - 1) := rfl
  rw [hlexeme]
  have hstart : numStart (c :: rest) := by
    rcases hcond with hc | ⟨rfl, hc⟩
    · exact Or.inl ⟨c, rest, rfl, hc⟩
    · rcases rest with _ | ⟨d, t⟩
      · exact absurd hc (by decide)
      · exact Or.inr ⟨d, t, rfl, by simpa [List.headD_cons] using hc⟩
  have hNT : NumText ((lexer_read_number (c :: rest)).1.take (SIMCL_LEXEME_MAX - 1)) :=
    NumText_take _ _ (read_number_shape (c :: rest))
  have hst : numStart ((lexer_read_number (c :: rest)).1.take (SIMCL_LEXEME_MAX - 1)) :=
    numStart_take _ _ (read_number_start (c :: rest) hstart) (by decide)
  have hlen : ((lexer_read_number (c :: rest)).1.take (SIMCL_LEXEME_MAX - 1)).length ≤
      SIMCL_LEXEME_MAX - 1 := by
    rw [List.length_take]
    exact inf_le_left
  rw [relex_number _ hNT hst hlen]
  exact ⟨rfl, rfl⟩

/-- Witness for C8: lexing `42` and re-lexing its lexeme. -/
theorem C8_number_round_trip_witness :
    (lexer_next (lexer_init (("42").data))).type = TOKEN_NUMBER ∧
    (lexer_next (lexer_init (("42").data))).lexeme = ("42").data :=
  C8_number_round_trip (lexer_init (("42").data))
    { src := [], line := 1, type := TOKEN_NUMBER, lexeme := ("42").data } (by rfl) (by rfl)

/-- Witness for C7: the unmatched character `@` degrades to an unknown
token carrying exactly `@`, and the scan is positioned past it. -/
theorem C7_lexer_never_errors_witness :
    lexer_next ⟨['@'], 1, TOKEN_EOF, []⟩ = ⟨[], 1, TOKEN_UNKNOWN, [('@' : Char)]⟩ :=
  C7_lexer_never_errors.2.2.2.2.2.2.2.2.2 '@' [] 1 TOKEN_EOF []
    (by decide) (by decide) (by decide) (by decide) (by decide) (by decide) (by decide)
    (by decide) (by decide) (by decide) (by decide) (by decide) (by decide) (by decide)
    (by decide) (by decide) (by decide) (by decide) (by decide) (by decide) (by decide)
    (by decide) (by decide) (by decide)

end SimCL
